import Mathlib

/-!
Verification development for the KMALL reader/writer (kmall.py).

The Python source is shallowly embedded: byte strings become `List ℕ`
(one entry per byte), Python floats become exact rationals `ℚ`, numpy
arrays become Lean lists, and methods that read from the open file
become functions over an explicit buffer and cursor, returning `Option`
where the Python code can raise.  External library calls (bz2
compression, the IEEE-754 float32 byte payload produced by struct.pack)
carry no content that any theorem below depends on; they are modelled by
an inverse identity pair (for bz2) and an opaque fixed 4-byte payload
(for float32), as noted at their definitions.
-/

unseal Rat.add Rat.mul Rat.sub Rat.inv Rat.ofScientific

namespace kmall

/-- A byte string: one natural number (expected below 256) per byte. -/
abbrev Bytes := List ℕ

/-- Model of struct.pack for one uint16, little endian. -/
def packU16 (n : ℕ) : Bytes := [n % 256, n / 256 % 256]

/-- Model of struct.pack for a run of uint16 values. -/
def packU16s (l : List ℕ) : Bytes := l.flatMap packU16

/-- Model of struct.pack for a run of uint8 values (Python raises for
entries at or above 256; the model reduces them mod 256, and theorems
bound the entries instead). -/
def packU8s (l : List ℕ) : Bytes := l.map (· % 256)

/-- Model of struct.pack for one uint32, little endian. -/
def packU32 (n : ℕ) : Bytes :=
  [n % 256, n / 256 % 256, n / 65536 % 256, n / 16777216 % 256]

/-- Model of struct.pack for one int32, two2s complement little endian. -/
def packI32 (z : ℤ) : Bytes := packU32 (z % 4294967296).toNat

/-- Model of struct.pack for one float32.  The IEEE-754 payload is opaque
in this model (a fixed 4-byte block): no theorem below depends on the
content of a float32 field, only on its 4-byte width, which is what this
captures. -/
def packF32 (_ : ℚ) : Bytes := [0, 0, 0, 0]

/-- Read one little-endian uint16 from the head of a buffer. -/
def unpackU16 (b : Bytes) : ℕ := b.getD 0 0 + 256 * b.getD 1 0

/-- Model of struct.unpack for a run of uint16 values (Python raises when
the buffer is short; the model reads zeros there, and every theorem uses
it within the packed extent). -/
def unpackU16s : ℕ → Bytes → List ℕ
  | 0, _ => []
  | n + 1, b => unpackU16 b :: unpackU16s n (b.drop 2)

/-- Model of struct.unpack for a run of uint8 values. -/
def unpackU8s : ℕ → Bytes → List ℕ
  | 0, _ => []
  | n + 1, b => b.getD 0 0 :: unpackU8s n (b.drop 1)

/-- Read one little-endian uint32 from the head of a buffer. -/
def unpackU32 (b : Bytes) : ℕ :=
  b.getD 0 0 + 256 * b.getD 1 0 + 65536 * b.getD 2 0 + 16777216 * b.getD 3 0

/-- Model of struct.unpack for a run of uint32 values. -/
def unpackU32s : ℕ → Bytes → List ℕ
  | 0, _ => []
  | n + 1, b => unpackU32 b :: unpackU32s n (b.drop 4)

/-- Read one little-endian int32 (two2s complement). -/
def unpackI32 (b : Bytes) : ℤ :=
  let u := unpackU32 b
  if u < 2147483648 then (u : ℤ) else (u : ℤ) - 4294967296

/-- Read one little-endian int16 (two2s complement). -/
def unpackI16 (b : Bytes) : ℤ :=
  let u := unpackU16 b
  if u < 32768 then (u : ℤ) else (u : ℤ) - 65536

/-- Model of struct.unpack for a run of int16 values. -/
def unpackI16s : ℕ → Bytes → List ℤ
  | 0, _ => []
  | n + 1, b => unpackI16 b :: unpackI16s n (b.drop 2)

/-- Kernel-evaluable floor of a rational (Int.fdiv is floor division). -/
def qfloor (q : ℚ) : ℤ := q.num.fdiv q.den

/-- Model of numpy round on a scalar: round half to even. -/
def rhe (q : ℚ) : ℤ :=
  let f := qfloor q
  let r := q - (f : ℚ)
  if r < 1 / 2 then f
  else if 1 / 2 < r then f + 1
  else if f % 2 = 0 then f else f + 1

/-- Model of numpy astype int: truncation toward zero. -/
def truncInt (q : ℚ) : ℤ := q.num.tdiv q.den

/-- Model of numpy diff: first differences of a sequence. -/
def npdiff : List ℚ → List ℚ
  | a :: b :: rest => (b - a) :: npdiff (b :: rest)
  | _ => []

/-- Model of numpy max (the model returns 0 on the empty list, where
numpy raises; every use below is guarded by a length hypothesis). -/
def npmax (l : List ℚ) : ℚ := l.foldl max (l.headD 0)

/-- Model of numpy min (same remark as npmax). -/
def npmin (l : List ℚ) : ℚ := l.foldl min (l.headD 0)

/-- Model of numpy cumsum, with a running accumulator. -/
def cumsumFrom (acc : ℚ) : List ℚ → List ℚ
  | [] => []
  | x :: r => (acc + x) :: cumsumFrom (acc + x) r

/-- Model of numpy cumsum: inclusive partial sums. -/
def cumsum (l : List ℚ) : List ℚ := cumsumFrom 0 l

/-- The mode-selection step of encodeArrayIntoUintX (kmall.py:2427-2443):
the values actually encoded are either the first differences
(differential mode) or the raw values from index 1 on (absolute mode),
whichever family has the smaller range, together with the min and max of
the selected family. -/
structure UintXPlan where
  differential : Bool
  minv : ℚ
  maxv : ℚ
  valuesToEncode : List ℚ
deriving DecidableEq

/-- kmall.py:2427-2443: compute first differences; if the raw values have
a strictly smaller range than the differences, switch to absolute mode
and encode the raw values from index 1 on. -/
def uintXPlan (A : List ℚ) : UintXPlan :=
  let d := npdiff A
  let maxv := npmax d
  let minv := npmin d
  let maxA := npmax A
  let minA := npmin A
  if maxA - minA < maxv - minv then ⟨false, minA, maxA, A.drop 1⟩
  else ⟨true, minv, maxv, d⟩

/-- kmall.py:2447-2452: integer-width fallback.  8 bits when the range
divided by 255 is below the target resolution, else 16 bits when the
range divided by 65535 is below it, else 32 bits. -/
def uintXBits (maxv minv res : ℚ) : ℕ :=
  if (maxv - minv) / 255 < res then 8
  else if (maxv - minv) / 65535 < res then 16
  else 32

/-- kmall.py:2459-2468: proportional scale factor, with unit scale in the
degenerate case of a constant family (maxv equal to minv). -/
def scaleFactor (maxv minv : ℚ) (bits : ℕ) : ℚ :=
  if maxv = minv then 1
  else if bits = 8 then 255 / (maxv - minv)
  else if bits = 16 then 65535 / (maxv - minv)
  else 4294967295 / (maxv - minv)

/-- The width actually selected by encodeArrayIntoUintX for input A at
resolution res. -/
def selectedBits (A : List ℚ) (res : ℚ) : ℕ :=
  uintXBits (uintXPlan A).maxv (uintXPlan A).minv res

/-- kmall.py:2470: the quantized integer levels, literally
valuesToEncode minus minv, times the scale factor, cast with astype int
(truncation toward zero). -/
def uintXScaled (A : List ℚ) (res : ℚ) : List ℤ :=
  let p := uintXPlan A
  let sf := scaleFactor p.maxv p.minv (selectedBits A res)
  p.valuesToEncode.map (fun v => truncInt ((v - p.minv) * sf))

/-- kmall.py:2388-2503 encodeArrayIntoUintX: adaptive differential or
absolute encoding of a float array into the buffer layout
float32 head value, float32 minv, float32 maxv, int32 signed count,
uint8 width, then the packed integer levels.  The count is stored
negated in differential mode.  (Python raises when a level falls outside
the chosen unsigned width; the model reduces mod the width, and the
theorems establish the level bounds separately where they matter.) -/
def encodeArrayIntoUintX (A : List ℚ) (res : ℚ) : Bytes :=
  let p := uintXPlan A
  let bits := selectedBits A res
  let tmp := uintXScaled A res
  let N := tmp.length
  packF32 (A.headD 0) ++ packF32 p.minv ++ packF32 p.maxv ++
    packI32 (if p.differential then -(N : ℤ) else (N : ℤ)) ++
    [bits % 256] ++
    (if bits = 8 then packU8s (tmp.map Int.toNat)
     else if bits = 16 then packU16s (tmp.map Int.toNat)
     else (tmp.map Int.toNat).flatMap packU32)

/-- kmall.py:2505-2557 decodeUintXintoArray: inverse of
encodeArrayIntoUintX.  Returns the decoded array and the number of bytes
consumed.  A negative stored count selects cumulative-sum reconstruction.
The three float32 header fields are opaque in this model (see packF32),
so the decoded float values are not meaningful here, but the byte count
consumed — which is all the round-trip theorems use — is exact.  (For a
width byte outside 8, 16, 32 the Python code raises NameError; the model
falls through to the 32-bit shape, which no theorem relies on.) -/
def decodeUintXintoArray (buffer : Bytes) : List ℚ × ℕ :=
  let A0 : ℚ := 0
  let minv : ℚ := 0
  let maxv : ℚ := 0
  let Nsigned := unpackI32 ((buffer.drop 12).take 4)
  let differentialDecode := Nsigned < 0
  let N := Nsigned.natAbs
  let bits := buffer.getD 16 0
  let dA : List ℕ :=
    if bits = 8 then unpackU8s N (buffer.drop 17)
    else if bits = 16 then unpackU16s N (buffer.drop 17)
    else unpackU32s N (buffer.drop 17)
  let bytesDecoded := 17 + N * (if bits = 8 then 1 else if bits = 16 then 2 else 4)
  let levels : ℚ := if bits = 8 then 255 else if bits = 16 then 65535 else 4294967295
  let deq := dA.map (fun x => (x : ℚ) * (maxv - minv) / levels + minv)
  let orig := if differentialDecode then cumsum (A0 :: deq) else A0 :: deq
  (orig, bytesDecoded)

/-- Model of bz2.compress.  The development only relies on bz2 being an
inverse pair with bz2.decompress; both are modelled as the identity. -/
def bz2compress (b : Bytes) : Bytes := b

/-- Model of bz2.decompress, inverse of bz2compress. -/
def bz2decompress (b : Bytes) : Bytes := b

/-- Model of numpy round with two decimals on a scalar. -/
def round2 (q : ℚ) : ℚ := (rhe (q * 100) : ℚ) / 100

/-- Model of scipy stats mode: the most frequent value of a list, the
smallest such value on a tie (scipy returns the smallest mode).  The
model returns 0 on the empty list, where scipy raises; the theorems
require at least one valid detection instead. -/
def modeOf (l : List ℚ) : ℚ :=
  (l.foldl
    (fun best x =>
      match best with
      | none => some x
      | some b =>
        if l.count x > l.count b ∨ (l.count x = l.count b ∧ x < b) then some x
        else some b)
    none).getD 0

/-- The valid-detection subset of a column: entries whose detectionMethod
is nonzero (kmall.py:2657-2659, the zip filter inside stats.mode). -/
def validSubset (dm : List ℤ) (v : List ℚ) : List ℚ :=
  (dm.zip v).filterMap (fun p => if p.1 ≠ 0 then some p.2 else none)

/-- kmall.py:2661-2663: keep entries with nonzero detectionMethod, and
replace the rest by the supplied value. -/
def replaceNonDetects (dm : List ℤ) (v : List ℚ) (m : ℚ) : List ℚ :=
  List.zipWith (fun x y => if x ≠ 0 then y else m) dm v

/-- kmall.py:2653-2673: the in-place mutation applied to a reflectivity
column before encoding — round to 2 decimals, then replace every
non-detect entry by the mode of the valid-detection subset of the
rounded column. -/
def mutateReflectivity (dm : List ℤ) (v : List ℚ) : List ℚ :=
  let r := v.map round2
  replaceNonDetects dm r (modeOf (validSubset dm r))

/-- Model of numpy unique with return_index (kmall.py:2637-2639): the
indices of the first occurrence of each distinct value, in ascending
index order (numpy sorts the indices before use). -/
def firstOccurrenceIdxsAux (seen : List ℤ) (i : ℕ) : List ℤ → List ℕ
  | [] => []
  | x :: r =>
    if x ∈ seen then firstOccurrenceIdxsAux seen (i + 1) r
    else i :: firstOccurrenceIdxsAux (x :: seen) (i + 1) r

/-- First-occurrence indices of the distinct values of a list. -/
def firstOccurrenceIdxs (tx : List ℤ) : List ℕ :=
  firstOccurrenceIdxsAux [] 0 tx

/-- kmall.py:2637-2640: one meanAbsCoeff value per distinct transmit
sector, rounded into hundredths (numpy round, astype int). -/
def sectorMeanVals (tx : List ℤ) (mac : List ℚ) : List ℤ :=
  (firstOccurrenceIdxs tx).map (fun i => rhe (100 * mac.getD i 0))

/-- The single-byte packing of the three enumerated sounding fields
(kmall.py:2598-2600): detectionType times 100 plus detectionMethod times
10 plus txSectorNumb. -/
def packDetTriple (dT dM tS : ℤ) : ℤ := dT * 100 + dM * 10 + tS

/-- The decoding of the packed byte (kmall.py:2714-2718): three stages of
numpy round, each feeding the next. -/
def unpackDetTriple (v : ℕ) : ℤ × ℤ × ℤ :=
  let dT := rhe ((v : ℚ) / 100)
  let dM := rhe (((v : ℚ) - (dT : ℚ) * 100) / 10)
  let tS := rhe ((v : ℚ) - (dT : ℚ) * 100 - (dM : ℚ) * 10)
  (dT, dM, tS)

/-- The exact condition under which the three-stage numpy-round decoding
of the packed byte recovers the packed triple (established below): the
tail 10 dM + tS must not push the first division past the half, and tS
must not push the second one past the half, with ties saved only by the
round-half-to-even rule. -/
def tripleDecodable (a b c : ℕ) : Prop :=
  (10 * b + c < 50 ∨ (10 * b + c = 50 ∧ a % 2 = 0)) ∧
    (c < 5 ∨ (c = 5 ∧ b % 2 = 0))

instance (a b c : ℕ) : Decidable (tripleDecodable a b c) := by
  unfold tripleDecodable; infer_instance


/-- The per-sounding columns of an MRZ record, as assembled by
read_EMdgmMRZ via listofdicts2dictoflists: one list per field, column
major.  Integer-valued columns are lists of naturals, except the three
fields packed into one byte (kmall.py:2598-2601), which decode through
numpy round into possibly negative integers and are therefore lists of
integers.  Float-valued columns are lists of rationals. -/
structure SoundingTable where
  soundingIndex : List ℕ
  txSectorNumb : List ℤ
  detectionType : List ℤ
  detectionMethod : List ℤ
  rejectionInfo1 : List ℕ
  rejectionInfo2 : List ℕ
  postProcessingInfo : List ℕ
  detectionClass : List ℕ
  detectionConfidenceLevel : List ℕ
  padding : List ℕ
  rangeFactor : List ℚ
  qualityFactor : List ℚ
  detectionUncertaintyVer_m : List ℚ
  detectionUncertaintyHor_m : List ℚ
  detectionWindowLength_sec : List ℚ
  echoLength_sec : List ℚ
  WCBeamNumb : List ℕ
  WCrange_samples : List ℕ
  WCNomBeamAngleAcross_deg : List ℚ
  meanAbsCoeff_dbPerkm : List ℚ
  reflectivity1_dB : List ℚ
  reflectivity2_dB : List ℚ
  receiverSensitivityApplied_dB : List ℚ
  sourceLevelApplied_dB : List ℚ
  BScalibration_dB : List ℚ
  TVG_dB : List ℚ
  beamAngleReRx_deg : List ℚ
  beamAngleCorrection_deg : List ℚ
  twoWayTravelTime_sec : List ℚ
  twoWayTravelTimeCorrection_sec : List ℚ
  deltaLatitude_deg : List ℚ
  deltaLongitude_deg : List ℚ
  z_reRefPoint_m : List ℚ
  y_reRefPoint_m : List ℚ
  x_reRefPoint_m : List ℚ
  beamIncAngleAdj_deg : List ℚ
  realTimeCleanInfo : List ℕ
  SIstartRange_samples : List ℕ
  SIcentreSample : List ℕ
  SInumSamples : List ℕ
deriving DecidableEq

/-- kmall.py:2559-2699 encodeAndCompressSoundings.  Returns the
bz2-compressed column buffer together with the sounding table as the
caller sees it after the call: the method mutates the two reflectivity
columns of its input dict in place (kmall.py:2653-2673), which the model
renders by returning the updated table.  Column order follows the source
exactly; padding and realTimeCleanInfo are deliberately not encoded
(kmall.py:2619-2621 and 2692-2693).  The numeric resolution literals of
the source are carried over as exact rationals. -/
def encodeAndCompressSoundings (dg : SoundingTable) : Bytes × SoundingTable :=
  let trip := (dg.detectionType.zip (dg.detectionMethod.zip dg.txSectorNumb)).map
      (fun p => packDetTriple p.1 p.2.1 p.2.2)
  let refl1 := mutateReflectivity dg.detectionMethod dg.reflectivity1_dB
  let refl2 := mutateReflectivity dg.detectionMethod dg.reflectivity2_dB
  let buffer :=
    packU16s dg.soundingIndex
    ++ packU8s (trip.map Int.toNat)
    ++ packU8s dg.rejectionInfo1
    ++ packU8s dg.rejectionInfo2
    ++ packU8s dg.postProcessingInfo
    ++ packU8s dg.detectionClass
    ++ packU8s dg.detectionConfidenceLevel
    ++ encodeArrayIntoUintX dg.rangeFactor 1
    ++ encodeArrayIntoUintX dg.qualityFactor (1 / 100)
    ++ encodeArrayIntoUintX dg.detectionUncertaintyVer_m (1 / 100)
    ++ encodeArrayIntoUintX dg.detectionUncertaintyHor_m (1 / 10)
    ++ encodeArrayIntoUintX dg.detectionWindowLength_sec (1 / 1000)
    ++ encodeArrayIntoUintX dg.echoLength_sec (1 / 1000)
    ++ packU16s dg.WCBeamNumb
    ++ packU16s dg.WCrange_samples
    ++ encodeArrayIntoUintX dg.WCNomBeamAngleAcross_deg (1 / 1000)
    ++ packU16s ((sectorMeanVals dg.txSectorNumb dg.meanAbsCoeff_dbPerkm).map Int.toNat)
    ++ encodeArrayIntoUintX refl1 (1 / 10)
    ++ encodeArrayIntoUintX refl2 (1 / 1000)
    ++ encodeArrayIntoUintX dg.receiverSensitivityApplied_dB (1 / 1000)
    ++ encodeArrayIntoUintX dg.sourceLevelApplied_dB (1 / 1000)
    ++ encodeArrayIntoUintX dg.BScalibration_dB (1 / 1000)
    ++ encodeArrayIntoUintX dg.TVG_dB (1 / 1000)
    ++ encodeArrayIntoUintX dg.beamAngleReRx_deg (1 / 1000)
    ++ encodeArrayIntoUintX dg.beamAngleCorrection_deg (1 / 1000)
    ++ encodeArrayIntoUintX dg.twoWayTravelTime_sec (1 / 1000000)
    ++ encodeArrayIntoUintX dg.twoWayTravelTimeCorrection_sec (1 / 10000000)
    ++ encodeArrayIntoUintX dg.deltaLatitude_deg (1 / 10000000)
    ++ encodeArrayIntoUintX dg.deltaLongitude_deg (1 / 10000000)
    ++ encodeArrayIntoUintX dg.z_reRefPoint_m (1 / 1000)
    ++ encodeArrayIntoUintX dg.y_reRefPoint_m (1 / 1000)
    ++ encodeArrayIntoUintX dg.x_reRefPoint_m (1 / 1000)
    ++ encodeArrayIntoUintX dg.beamIncAngleAdj_deg (1 / 1000)
    ++ packU16s dg.SIstartRange_samples
    ++ packU16s dg.SIcentreSample
    ++ packU16s dg.SInumSamples
  (bz2compress buffer,
   { dg with reflectivity1_dB := refl1, reflectivity2_dB := refl2 })

/-- Consume a run of uint16 values from the head of a working buffer. -/
def takeU16s (n : ℕ) (b : Bytes) : List ℕ × Bytes := (unpackU16s n b, b.drop (2 * n))

/-- Consume a run of uint8 values from the head of a working buffer. -/
def takeU8s (n : ℕ) (b : Bytes) : List ℕ × Bytes := (unpackU8s n b, b.drop n)

/-- Consume one encodeArrayIntoUintX block from the head of a working
buffer, via the byte count reported by decodeUintXintoArray. -/
def takeUintX (b : Bytes) : List ℚ × Bytes :=
  let r := decodeUintXintoArray b
  (r.1, b.drop r.2)

/-- kmall.py:2701-2834 expandAndDecodeSoundings: inverse of
encodeAndCompressSoundings.  Field order and pointer arithmetic follow
the source; padding and realTimeCleanInfo are regenerated as zero runs
(kmall.py:2740 and 2826); the three byte-packed fields decode through
numpy round (kmall.py:2716-2718); meanAbsCoeff is broadcast back per
sector by indexing the per-sector value list with the sector number
(kmall.py:2770-2772 — Python raises IndexError when a sector number is
not below the count of distinct sectors, and indexes from the end when
it is negative; the model returns 0 in those out-of-range cases, and the
round-trip theorem assumes them away).  Python raises on a short buffer
where the model reads zeros; the theorems apply the model on encoder
output, where the extents always suffice. -/
def expandAndDecodeSoundings (buffer0 : Bytes) (records : ℕ) : SoundingTable :=
  let buffer := bz2decompress buffer0
  let s0 := takeU16s records buffer
  let soundingIndex := s0.1
  let s1 := takeU8s records s0.2
  let tmp := s1.1
  let detectionType := tmp.map (fun u => (unpackDetTriple u).1)
  let detectionMethod := tmp.map (fun u => (unpackDetTriple u).2.1)
  let txSectorNumb := tmp.map (fun u => (unpackDetTriple u).2.2)
  let s2 := takeU8s records s1.2
  let s3 := takeU8s records s2.2
  let s4 := takeU8s records s3.2
  let s5 := takeU8s records s4.2
  let s6 := takeU8s records s5.2
  let padding : List ℕ := List.replicate soundingIndex.length 0
  let f1 := takeUintX s6.2
  let f2 := takeUintX f1.2
  let f3 := takeUintX f2.2
  let f4 := takeUintX f3.2
  let f5 := takeUintX f4.2
  let f6 := takeUintX f5.2
  let s7 := takeU16s records f6.2
  let s8 := takeU16s records s7.2
  let f7 := takeUintX s8.2
  let Nsectors := (firstOccurrenceIdxs txSectorNumb).length
  let s9 := takeU16s Nsectors f7.2
  let values := s9.1.map (fun v => (v : ℚ) / 100)
  let meanAbsCoeff := txSectorNumb.map (fun s => values.getD s.toNat 0)
  let f8 := takeUintX s9.2
  let reflectivity1 :=
    List.zipWith (fun x y => if x = 0 then (-100 : ℚ) else y) detectionMethod f8.1
  let f9 := takeUintX f8.2
  let reflectivity2 :=
    List.zipWith (fun x y => if x = 0 then (-100 : ℚ) else y) detectionMethod f9.1
  let f10 := takeUintX f9.2
  let f11 := takeUintX f10.2
  let f12 := takeUintX f11.2
  let f13 := takeUintX f12.2
  let f14 := takeUintX f13.2
  let f15 := takeUintX f14.2
  let f16 := takeUintX f15.2
  let f17 := takeUintX f16.2
  let f18 := takeUintX f17.2
  let f19 := takeUintX f18.2
  let f20 := takeUintX f19.2
  let f21 := takeUintX f20.2
  let f22 := takeUintX f21.2
  let f23 := takeUintX f22.2
  let realTimeCleanInfo : List ℕ := List.replicate soundingIndex.length 0
  let s10 := takeU16s records f23.2
  let s11 := takeU16s records s10.2
  let s12 := takeU16s records s11.2
  { soundingIndex := soundingIndex
    txSectorNumb := txSectorNumb
    detectionType := detectionType
    detectionMethod := detectionMethod
    rejectionInfo1 := s2.1
    rejectionInfo2 := s3.1
    postProcessingInfo := s4.1
    detectionClass := s5.1
    detectionConfidenceLevel := s6.1
    padding := padding
    rangeFactor := f1.1
    qualityFactor := f2.1
    detectionUncertaintyVer_m := f3.1
    detectionUncertaintyHor_m := f4.1
    detectionWindowLength_sec := f5.1
    echoLength_sec := f6.1
    WCBeamNumb := s7.1
    WCrange_samples := s8.1
    WCNomBeamAngleAcross_deg := f7.1
    meanAbsCoeff_dbPerkm := meanAbsCoeff
    reflectivity1_dB := reflectivity1
    reflectivity2_dB := reflectivity2
    receiverSensitivityApplied_dB := f10.1
    sourceLevelApplied_dB := f11.1
    BScalibration_dB := f12.1
    TVG_dB := f13.1
    beamAngleReRx_deg := f14.1
    beamAngleCorrection_deg := f15.1
    twoWayTravelTime_sec := f16.1
    twoWayTravelTimeCorrection_sec := f17.1
    deltaLatitude_deg := f18.1
    deltaLongitude_deg := f19.1
    z_reRefPoint_m := f20.1
    y_reRefPoint_m := f21.1
    x_reRefPoint_m := f22.1
    beamIncAngleAdj_deg := f23.1
    realTimeCleanInfo := realTimeCleanInfo
    SIstartRange_samples := s10.1
    SIcentreSample := s11.1
    SInumSamples := s12.1 }

/-- Model of FID.read n followed by struct.unpack: succeeds and yields n
bytes exactly when n bytes remain before the end of the buffer, else the
unpack raises (none). -/
def readUnpack (n : ℕ) (data : Bytes) (pos : ℕ) : Option (Bytes × ℕ) :=
  if pos + n ≤ data.length then some ((data.drop pos).take n, pos + n) else none

/-- kmall.py:199-230 read_EMdgmHeader, format 1I4s2B1H2I (20 bytes).
The derived float time and datetime fields of the source are not
separately modelled; the two raw integer time fields are kept. -/
structure EMdgmHeader where
  numBytesDgm : ℕ
  dgmType : Bytes
  dgmVersion : ℕ
  systemID : ℕ
  echoSounderID : ℕ
  time_sec : ℕ
  time_nanosec : ℕ
deriving DecidableEq

/-- Reader for EMdgmHeader. -/
def read_EMdgmHeader (data : Bytes) (pos : ℕ) : Option (EMdgmHeader × ℕ) := do
  let r ← readUnpack 20 data pos
  some ({ numBytesDgm := unpackU32 r.1
          dgmType := (r.1.drop 4).take 4
          dgmVersion := r.1.getD 8 0
          systemID := r.1.getD 9 0
          echoSounderID := unpackU16 (r.1.drop 10)
          time_sec := unpackU32 (r.1.drop 12)
          time_nanosec := unpackU32 (r.1.drop 16) }, r.2)

/-- kmall.py:356-381 read_EMdgmMpartition, format 2H (4 bytes). -/
structure EMdgmMpartition where
  numOfDgms : ℕ
  dgmNum : ℕ
deriving DecidableEq

/-- Reader for EMdgmMpartition. -/
def read_EMdgmMpartition (data : Bytes) (pos : ℕ) : Option (EMdgmMpartition × ℕ) := do
  let r ← readUnpack 4 data pos
  some ({ numOfDgms := unpackU16 r.1, dgmNum := unpackU16 (r.1.drop 2) }, r.2)

/-- kmall.py:383-426 read_EMdgmMbody, format 2H8B (12 bytes). -/
structure EMdgmMbody where
  numBytesCmnPart : ℕ
  pingCnt : ℕ
  rxFansPerPing : ℕ
  rxFanIndex : ℕ
  swathsPerPing : ℕ
  swathAlongPosition : ℕ
  txTransducerInd : ℕ
  rxTransducerInd : ℕ
  numRxTransducers : ℕ
  algorithmType : ℕ
deriving DecidableEq

/-- Reader for EMdgmMbody.  After the 12 fixed bytes the source seeks
relatively by numBytesCmnPart minus 12 (kmall.py:421) with no sign
check, so the net cursor always lands at the struct start plus
numBytesCmnPart — a silent backward seek whenever the declared size is
below 12. -/
def read_EMdgmMbody (data : Bytes) (pos : ℕ) : Option (EMdgmMbody × ℕ) := do
  let r ← readUnpack 12 data pos
  let dg : EMdgmMbody :=
    { numBytesCmnPart := unpackU16 r.1
      pingCnt := unpackU16 (r.1.drop 2)
      rxFansPerPing := r.1.getD 4 0
      rxFanIndex := r.1.getD 5 0
      swathsPerPing := r.1.getD 6 0
      swathAlongPosition := r.1.getD 7 0
      txTransducerInd := r.1.getD 8 0
      rxTransducerInd := r.1.getD 9 0
      numRxTransducers := r.1.getD 10 0
      algorithmType := r.1.getD 11 0 }
  some (dg, pos + dg.numBytesCmnPart)

/-- kmall.py:428-597 read_EMdgmMRZ_pingInfo, formats
2H1f6B1H11f2h2B1H1I3f2H1f2H6f4B (124 bytes with native alignment) then
2d1f (20 bytes), then a relative seek to the declared numBytesInfoData
boundary (kmall.py:591-592).  Only the integer fields some claim uses
are decoded into the record (numBytesInfoData at offset 0, numTxSectors
at offset 92, numBytesPerTxSector at offset 94); the remaining fields
are consumed positionally exactly as in the source. -/
structure EMdgmMRZ_pingInfo where
  numBytesInfoData : ℕ
  numTxSectors : ℕ
  numBytesPerTxSector : ℕ
deriving DecidableEq

/-- Reader for EMdgmMRZ_pingInfo. -/
def read_EMdgmMRZ_pingInfo (data : Bytes) (pos : ℕ) : Option (EMdgmMRZ_pingInfo × ℕ) := do
  let r ← readUnpack 124 data pos
  let _ ← readUnpack 20 data r.2
  let dg : EMdgmMRZ_pingInfo :=
    { numBytesInfoData := unpackU16 r.1
      numTxSectors := unpackU16 (r.1.drop 92)
      numBytesPerTxSector := unpackU16 (r.1.drop 94) }
  some (dg, pos + dg.numBytesInfoData)

/-- kmall.py:599-649 read_EMdgmMRZ_txSectorInfo, format 4B7f2B1H
(36 bytes, no declared-size field).  The three leading byte fields are
decoded; the float fields are consumed positionally. -/
structure EMdgmMRZ_txSectorInfo where
  txSectorNumb : ℕ
  txArrNumber : ℕ
  txSubArray : ℕ
deriving DecidableEq

/-- Reader for EMdgmMRZ_txSectorInfo. -/
def read_EMdgmMRZ_txSectorInfo (data : Bytes) (pos : ℕ) :
    Option (EMdgmMRZ_txSectorInfo × ℕ) := do
  let r ← readUnpack 36 data pos
  some ({ txSectorNumb := r.1.getD 0 0
          txArrNumber := r.1.getD 1 0
          txSubArray := r.1.getD 2 0 }, r.2)

/-- kmall.py:651-695 read_EMdgmMRZ_rxInfo, format 4H4f4H (32 bytes),
then a relative seek to the declared numBytesRxInfo boundary
(kmall.py:690).  The integer fields are decoded; the four floats are
consumed positionally. -/
structure EMdgmMRZ_rxInfo where
  numBytesRxInfo : ℕ
  numSoundingsMaxMain : ℕ
  numSoundingsValidMain : ℕ
  numBytesPerSounding : ℕ
  extraDetectionAlarmFlag : ℕ
  numExtraDetections : ℕ
  numExtraDetectionClasses : ℕ
  numBytesPerClass : ℕ
deriving DecidableEq

/-- Reader for EMdgmMRZ_rxInfo. -/
def read_EMdgmMRZ_rxInfo (data : Bytes) (pos : ℕ) : Option (EMdgmMRZ_rxInfo × ℕ) := do
  let r ← readUnpack 32 data pos
  let dg : EMdgmMRZ_rxInfo :=
    { numBytesRxInfo := unpackU16 r.1
      numSoundingsMaxMain := unpackU16 (r.1.drop 2)
      numSoundingsValidMain := unpackU16 (r.1.drop 4)
      numBytesPerSounding := unpackU16 (r.1.drop 6)
      extraDetectionAlarmFlag := unpackU16 (r.1.drop 24)
      numExtraDetections := unpackU16 (r.1.drop 26)
      numExtraDetectionClasses := unpackU16 (r.1.drop 28)
      numBytesPerClass := unpackU16 (r.1.drop 30) }
  some (dg, pos + dg.numBytesRxInfo)

/-- kmall.py:697-719 read_EMdgmMRZ_extraDetClassInfo, format 1H1b1B
(4 bytes, no declared-size field). -/
structure EMdgmMRZ_extraDetClassInfo where
  numExtraDetInClass : ℕ
  alarmFlag : ℕ
deriving DecidableEq

/-- Reader for EMdgmMRZ_extraDetClassInfo. -/
def read_EMdgmMRZ_extraDetClassInfo (data : Bytes) (pos : ℕ) :
    Option (EMdgmMRZ_extraDetClassInfo × ℕ) := do
  let r ← readUnpack 4 data pos
  some ({ numExtraDetInClass := unpackU16 r.1, alarmFlag := r.1.getD 3 0 }, r.2)

/-- kmall.py:721-852 read_EMdgmMRZ_sounding, format 1H8B1H6f2H18f4H
(120 bytes, no declared-size field).  The integer fields a claim uses
are decoded (soundingIndex at offset 0, txSectorNumb, detectionType and
detectionMethod at offsets 2-4, SInumSamples at offset 118); the float
fields are consumed positionally. -/
structure EMdgmMRZ_sounding where
  soundingIndex : ℕ
  txSectorNumb : ℕ
  detectionType : ℕ
  detectionMethod : ℕ
  SInumSamples : ℕ
deriving DecidableEq

/-- Reader for EMdgmMRZ_sounding. -/
def read_EMdgmMRZ_sounding (data : Bytes) (pos : ℕ) :
    Option (EMdgmMRZ_sounding × ℕ) := do
  let r ← readUnpack 120 data pos
  some ({ soundingIndex := unpackU16 r.1
          txSectorNumb := r.1.getD 2 0
          detectionType := r.1.getD 3 0
          detectionMethod := r.1.getD 4 0
          SInumSamples := unpackU16 (r.1.drop 118) }, r.2)

/-- Repeat a sub-struct reader an explicit number of times, threading
the cursor (the repeat loops of kmall.py:878-899). -/
def readRepeat {α : Type} (rd : Bytes → ℕ → Option (α × ℕ)) :
    ℕ → Bytes → ℕ → Option (List α × ℕ)
  | 0, _, pos => some ([], pos)
  | n + 1, data, pos => do
    let r ← rd data pos
    let rest ← readRepeat rd n data r.2
    some (r.1 :: rest.1, rest.2)

/-- Read a run of int16 seabed-image samples (kmall.py:909-911). -/
def readI16s (n : ℕ) (data : Bytes) (pos : ℕ) : Option (List ℤ × ℕ) := do
  let r ← readUnpack (2 * n) data pos
  some (unpackI16s n r.1, r.2)

/-- The decoded MRZ record assembled by read_EMdgmMRZ. -/
structure EMdgmMRZ where
  header : EMdgmHeader
  partition : EMdgmMpartition
  cmnPart : EMdgmMbody
  pingInfo : EMdgmMRZ_pingInfo
  txSectorInfo : List EMdgmMRZ_txSectorInfo
  rxInfo : EMdgmMRZ_rxInfo
  extraDetClassInfo : List EMdgmMRZ_extraDetClassInfo
  sounding : List EMdgmMRZ_sounding
  SIsample_desidB : List ℤ
deriving DecidableEq

/-- kmall.py:854-916 read_EMdgmMRZ: header, partition, common body,
ping info, numTxSectors sector-info entries, rx info,
numExtraDetectionClasses class entries, numSoundingsMaxMain plus
numExtraDetections soundings, then exactly the sum of the per-sounding
SInumSamples int16 seabed-image samples, and finally an unconditional
absolute seek to the struct start plus the declared numBytesDgm
(kmall.py:914). -/
def read_EMdgmMRZ (data : Bytes) (start : ℕ) : Option (EMdgmMRZ × ℕ) := do
  let header ← read_EMdgmHeader data start
  let partition ← read_EMdgmMpartition data header.2
  let cmnPart ← read_EMdgmMbody data partition.2
  let pingInfo ← read_EMdgmMRZ_pingInfo data cmnPart.2
  let txSectorInfo ←
    readRepeat read_EMdgmMRZ_txSectorInfo pingInfo.1.numTxSectors data pingInfo.2
  let rxInfo ← read_EMdgmMRZ_rxInfo data txSectorInfo.2
  let extraDetClassInfo ←
    readRepeat read_EMdgmMRZ_extraDetClassInfo rxInfo.1.numExtraDetectionClasses data rxInfo.2
  let sounding ←
    readRepeat read_EMdgmMRZ_sounding
      (rxInfo.1.numExtraDetections + rxInfo.1.numSoundingsMaxMain) data extraDetClassInfo.2
  let SIsample ←
    readI16s ((sounding.1.map (fun s => s.SInumSamples)).sum) data sounding.2
  some ({ header := header.1
          partition := partition.1
          cmnPart := cmnPart.1
          pingInfo := pingInfo.1
          txSectorInfo := txSectorInfo.1
          rxInfo := rxInfo.1
          extraDetClassInfo := extraDetClassInfo.1
          sounding := sounding.1
          SIsample_desidB := SIsample.1 },
        start + header.1.numBytesDgm)

/-- The decoder state of the kmall class that decode_datagram,
read_datagram and skip_datagram touch (kmall.py:92-172): the open file
(a byte buffer), its cursor, and the identification attributes. -/
structure KmallState where
  data : Bytes
  pos : ℕ
  datagram_ident : Option Bytes
  read_method : Option String
  eof : Bool
deriving DecidableEq

/-- kmall.py:165-172 skip_datagram: when decode_datagram identified a
datagram (read_method is not None), read the 4-byte length word and seek
relatively by that length minus 4, landing the cursor at the datagram
start plus the declared length; when read_method is None, do nothing at
all.  The read raises (none) when fewer than 4 bytes remain. -/
def skip_datagram (s : KmallState) : Option KmallState :=
  match s.read_method with
  | none => some s
  | some _ =>
    if s.pos + 4 ≤ s.data.length then
      some { s with pos := s.pos + unpackU32 ((s.data.drop s.pos).take 4) }
    else none

end kmall

namespace kmall

/-! ## Support lemmas -/

theorem foldl_min_le_init (init : ℚ) (l : List ℚ) : l.foldl min init ≤ init := by
  induction l generalizing init with
  | nil => simp
  | cons a t ih => exact le_trans (ih (min init a)) (min_le_left _ _)

theorem foldl_min_le_mem (init : ℚ) (l : List ℚ) : ∀ v ∈ l, l.foldl min init ≤ v := by
  induction l generalizing init with
  | nil => simp
  | cons a t ih =>
    intro v hv
    rcases List.mem_cons.mp hv with rfl | hv
    · exact le_trans (foldl_min_le_init (min init v) t) (min_le_right init v)
    · exact ih _ v hv

theorem init_le_foldl_max (init : ℚ) (l : List ℚ) : init ≤ l.foldl max init := by
  induction l generalizing init with
  | nil => simp
  | cons a t ih => exact le_trans (le_max_left _ _) (ih (max init a))

theorem mem_le_foldl_max (init : ℚ) (l : List ℚ) : ∀ v ∈ l, v ≤ l.foldl max init := by
  induction l generalizing init with
  | nil => simp
  | cons a t ih =>
    intro v hv
    rcases List.mem_cons.mp hv with rfl | hv
    · exact le_trans (le_max_right init v) (init_le_foldl_max (max init v) t)
    · exact ih _ v hv

theorem npmin_le_mem (l : List ℚ) : ∀ v ∈ l, npmin l ≤ v :=
  foldl_min_le_mem _ l

theorem mem_le_npmax (l : List ℚ) : ∀ v ∈ l, v ≤ npmax l :=
  mem_le_foldl_max _ l

theorem npmin_le_npmax (l : List ℚ) (h : l ≠ []) : npmin l ≤ npmax l := by
  obtain ⟨a, t, rfl⟩ := List.exists_cons_of_ne_nil h
  exact le_trans (npmin_le_mem _ a (by simp)) (mem_le_npmax _ a (by simp))

theorem truncInt_eq_floor (q : ℚ) (h : 0 ≤ q) : truncInt q = ⌊q⌋ := by
  rw [truncInt, Int.tdiv_eq_ediv (Rat.num_nonneg.mpr h) (Int.ofNat_nonneg q.den),
    Rat.floor_def]

theorem npdiff_length (l : List ℚ) : (npdiff l).length = l.length - 1 := by
  induction l with
  | nil => simp [npdiff]
  | cons a t ih =>
    cases t with
    | nil => simp [npdiff]
    | cons b r => simpa [npdiff] using ih

/-! ## C10 -/

/-- C10: if decode_datagram did not identify a datagram (read_method is
None, as after end of file or a failed identification), skip_datagram
performs no read and no seek — the cursor and the whole decoder state are
returned unchanged, and no error is raised. -/
theorem skip_datagram_noop_when_unidentified (s : KmallState)
    (h : s.read_method = none) : skip_datagram s = some s := by
  unfold skip_datagram
  rw [h]

/-- Concrete instance of the C10 theorem. -/
def skipIdleState : KmallState :=
  { data := [12, 0, 0, 0, 35, 77, 82, 90], pos := 3, datagram_ident := none,
    read_method := none, eof := true }

theorem skip_datagram_noop_when_unidentified_witness :
    skip_datagram skipIdleState = some skipIdleState :=
  skip_datagram_noop_when_unidentified skipIdleState rfl

/-! ## C7 -/

/-- A 12-byte M-body whose declared size numBytesCmnPart is 10, smaller
than the 12 bytes of its known fixed fields. -/
def mbodyUnderflowBuf : Bytes := packU16 10 ++ packU16 7 ++ [1, 2, 3, 4, 5, 6, 7, 8]

/-- The record that read_EMdgmMbody yields on that buffer. -/
def mbodyUnderflowDg : EMdgmMbody :=
  { numBytesCmnPart := 10, pingCnt := 7, rxFansPerPing := 1, rxFanIndex := 2,
    swathsPerPing := 3, swathAlongPosition := 4, txTransducerInd := 5,
    rxTransducerInd := 6, numRxTransducers := 7, algorithmType := 8 }

/-- C7 counterexample: with a declared struct size (10) smaller than the
known fixed fields (12 bytes), read_EMdgmMbody does NOT raise a hard
error — it succeeds and silently seeks backward, leaving the cursor at
struct start + 10, before the end of the 12 bytes it just consumed. -/
theorem read_EMdgmMbody_underflow_no_error :
    read_EMdgmMbody mbodyUnderflowBuf 0 = some (mbodyUnderflowDg, 10) ∧ 10 < 12 := by
  constructor
  · decide
  · decide

/-- C7 amended: for every M-datagram common body that decodes (12 bytes
available), read_EMdgmMbody returns successfully and leaves the cursor
at struct start plus the declared numBytesCmnPart, whether or not that
declared size is smaller than the 12 known-field bytes; a declared-size
underflow produces a silent net backward seek, not an error. -/
theorem read_EMdgmMbody_skip_is_signed (data : Bytes) (pos : ℕ)
    (h : pos + 12 ≤ data.length) :
    ∃ dg : EMdgmMbody,
      read_EMdgmMbody data pos = some (dg, pos + dg.numBytesCmnPart) := by
  unfold read_EMdgmMbody readUnpack
  rw [if_pos h]
  exact ⟨_, rfl⟩

/-- Concrete instance of the amended C7 theorem, on a well-formed body
whose declared size is 14. -/
def mbodyOkBuf : Bytes := packU16 14 ++ packU16 3 ++ [0, 0, 0, 0, 0, 0, 0, 0] ++ [9, 9]

theorem read_EMdgmMbody_skip_is_signed_witness :
    ∃ dg : EMdgmMbody, read_EMdgmMbody mbodyOkBuf 0 = some (dg, 0 + dg.numBytesCmnPart) :=
  read_EMdgmMbody_skip_is_signed mbodyOkBuf 0 (by decide)

/-! ## C4 -/

/-- C4 counterexample: the packed triple detectionType 0, detectionMethod
6, txSectorNumb 0 is within the ranges the claim allows (types 0-2,
methods 0-15, single-digit sectors), yet the decode stages of
expandAndDecodeSoundings return (1, -4, 0): numpy round carries 60/100
up to 1 instead of down to 0, so the three original values are not
recovered. -/
theorem unpackDetTriple_not_inverse :
    packDetTriple 0 6 0 = 60 ∧
    unpackDetTriple 60 = (1, -4, 0) ∧
    ((1 : ℤ), (-4 : ℤ), (0 : ℤ)) ≠ ((0 : ℤ), (6 : ℤ), (0 : ℤ)) := by
  refine ⟨by decide, by decide, by decide⟩

set_option synthInstance.maxSize 2000 in
set_option synthInstance.maxHeartbeats 1000000 in
theorem tripleRoundTripNat :
    ∀ a : ℕ, a < 3 → ∀ b : ℕ, b < 16 → ∀ c : ℕ, c < 10 →
      tripleDecodable a b c →
      (packDetTriple a b c).toNat < 256 ∧
      unpackDetTriple (packDetTriple a b c).toNat = ((a : ℤ), (b : ℤ), (c : ℤ)) := by
  decide

/-- C4 amended: the byte packing of kmall.py:2598-2601 is inverted by
the round-based decode of kmall.py:2714-2718 exactly on the decodable
triples: detectionType 0-2, detectionMethod 0-15, txSectorNumb 0-9 with
10 detectionMethod + txSectorNumb below 50 (or equal to 50 with even
detectionType) and txSectorNumb below 5 (or equal to 5 with even
detectionMethod); such packed values also fit the single byte the
encoder stores them in. -/
theorem unpackDetTriple_packDetTriple :
    ∀ a : ℕ, a < 3 → ∀ b : ℕ, b < 16 → ∀ c : ℕ, c < 10 →
      tripleDecodable a b c →
      (packDetTriple a b c).toNat < 256 ∧
      unpackDetTriple (packDetTriple a b c).toNat = ((a : ℤ), (b : ℤ), (c : ℤ)) :=
  tripleRoundTripNat

/-- Concrete instance of the amended C4 theorem. -/
theorem unpackDetTriple_packDetTriple_witness :
    (packDetTriple 1 3 2).toNat < 256 ∧
    unpackDetTriple (packDetTriple 1 3 2).toNat = ((1 : ℤ), (3 : ℤ), (2 : ℤ)) :=
  unpackDetTriple_packDetTriple 1 (by decide) 3 (by decide) 2 (by decide) (by decide)

/-! ## C2 -/

/-- The range (max minus min) of the family of values the encoder
selected for encoding. -/
def selectedRange (A : List ℚ) : ℚ := (uintXPlan A).maxv - (uintXPlan A).minv

theorem encodeArrayIntoUintX_bits_byte (A : List ℚ) (res : ℚ) :
    (encodeArrayIntoUintX A res).getD 16 0 = selectedBits A res := by
  have h : selectedBits A res = 8 ∨ selectedBits A res = 16 ∨ selectedBits A res = 32 := by
    unfold selectedBits uintXBits
    split_ifs <;> simp
  simp only [encodeArrayIntoUintX, packF32, packI32, packU32]
  rcases h with h | h | h <;> rw [h] <;> rfl

/-- C2: encodeArrayIntoUintX selects the integer width by strict ordered
fallback on the range of the selected family — 8 bits exactly when
range/255 is below the resolution, otherwise 16 bits exactly when
range/65535 is below it, otherwise 32 bits — and the width byte it emits
at offset 16 of the block is exactly that selection.  In particular a
range needing more than 255 but fewer than 65535 levels gets 16 bits,
never 8 and never 32. -/
theorem encodeArrayIntoUintX_width_fallback (A : List ℚ) (res : ℚ) (hres : 0 < res) :
    (encodeArrayIntoUintX A res).getD 16 0 = selectedBits A res ∧
    (selectedBits A res = 8 ↔ selectedRange A / 255 < res) ∧
    (selectedBits A res = 16 ↔
      ¬ selectedRange A / 255 < res ∧ selectedRange A / 65535 < res) ∧
    (selectedBits A res = 32 ↔
      ¬ selectedRange A / 255 < res ∧ ¬ selectedRange A / 65535 < res) := by
  refine ⟨encodeArrayIntoUintX_bits_byte A res, ?_⟩
  unfold selectedBits uintXBits selectedRange
  split_ifs <;> simp_all

/-- Concrete instance of the C2 theorem: the range 2 family at
resolution 1/200 needs more than 255 levels but fewer than 65535, and
16 bits are selected. -/
theorem encodeArrayIntoUintX_width_fallback_witness :
    ((encodeArrayIntoUintX [0, 2, 1] (1 / 200)).getD 16 0 = selectedBits [0, 2, 1] (1 / 200) ∧
      (selectedBits [0, 2, 1] (1 / 200) = 8 ↔ selectedRange [0, 2, 1] / 255 < 1 / 200) ∧
      (selectedBits [0, 2, 1] (1 / 200) = 16 ↔
        ¬ selectedRange [0, 2, 1] / 255 < 1 / 200 ∧ selectedRange [0, 2, 1] / 65535 < 1 / 200) ∧
      (selectedBits [0, 2, 1] (1 / 200) = 32 ↔
        ¬ selectedRange [0, 2, 1] / 255 < 1 / 200 ∧ ¬ selectedRange [0, 2, 1] / 65535 < 1 / 200)) ∧
    selectedBits [0, 2, 1] (1 / 200) = 16 :=
  ⟨encodeArrayIntoUintX_width_fallback [0, 2, 1] (1 / 200) (by decide), by decide⟩

/-! ## C3 -/

/-- C3 counterexample: on the input 0, 2, 1 at resolution 1 the encoder
is in absolute mode with min 0, max 2, 8 bits, scale 255/2; the second
encoded value 1 scales to 127.5, which numpy astype int truncates to
127, while the round of the claimed formula gives 128.  The degenerate
clause of the claim is unaffected (see the amended theorem). -/
theorem uintXScaled_truncates_not_rounds :
    uintXScaled [0, 2, 1] 1 = [255, 127] ∧
    rhe ((1 - (0 : ℚ)) * scaleFactor 2 0 8) = 128 := by
  refine ⟨by decide, by decide⟩

theorem uintXPlan_minv_le (A : List ℚ) :
    ∀ v ∈ (uintXPlan A).valuesToEncode, (uintXPlan A).minv ≤ v := by
  simp only [uintXPlan]
  split
  · intro v hv
    exact npmin_le_mem A v (List.mem_of_mem_drop hv)
  · intro v hv
    exact npmin_le_mem (npdiff A) v hv

theorem uintXPlan_minv_le_maxv (A : List ℚ) (h2 : 2 ≤ A.length) :
    (uintXPlan A).minv ≤ (uintXPlan A).maxv := by
  have hA : A ≠ [] := by
    intro h
    rw [h] at h2
    simp at h2
  have hd : npdiff A ≠ [] := by
    intro h
    have := npdiff_length A
    rw [h] at this
    simp at this
    omega
  simp only [uintXPlan]
  split
  · exact npmin_le_npmax A hA
  · exact npmin_le_npmax (npdiff A) hd

theorem scaleFactor_nonneg (maxv minv : ℚ) (bits : ℕ) (h : minv ≤ maxv) :
    0 ≤ scaleFactor maxv minv bits := by
  unfold scaleFactor
  split_ifs with h1 h2 h3
  · norm_num
  all_goals
    have hpos : 0 < maxv - minv := sub_pos.mpr (lt_of_le_of_ne h (Ne.symm h1))
    exact le_of_lt (by positivity)

/-- C3 amended: encodeArrayIntoUintX quantizes each value of the
selected family by truncation toward zero — equivalently, since the
scaled quantity is nonnegative, scaled i equals the floor (not the
round) of (value i − min) · scale; and in the degenerate case max = min
a unit scale factor of 1 is used, so the encoder is total on constant
families with no division by zero. -/
theorem uintXScaled_eq_floor (A : List ℚ) (res : ℚ) (h2 : 2 ≤ A.length) :
    uintXScaled A res =
      (uintXPlan A).valuesToEncode.map
        (fun v => ⌊(v - (uintXPlan A).minv) *
            scaleFactor (uintXPlan A).maxv (uintXPlan A).minv (selectedBits A res)⌋) ∧
    ((uintXPlan A).maxv = (uintXPlan A).minv →
      scaleFactor (uintXPlan A).maxv (uintXPlan A).minv (selectedBits A res) = 1) := by
  constructor
  · unfold uintXScaled
    refine List.map_congr_left ?_
    intro v hv
    refine truncInt_eq_floor _ ?_
    refine mul_nonneg (sub_nonneg.mpr (uintXPlan_minv_le A v hv)) ?_
    exact scaleFactor_nonneg _ _ _ (uintXPlan_minv_le_maxv A h2)
  · intro h
    unfold scaleFactor
    rw [if_pos h]

/-! ## C5 and C6 -/

theorem unpackI16s_length (n : ℕ) (b : Bytes) : (unpackI16s n b).length = n := by
  induction n generalizing b with
  | zero => rfl
  | succ k ih => simp [unpackI16s, ih]

theorem readRepeat_length {α : Type} (rd : Bytes → ℕ → Option (α × ℕ)) (n : ℕ)
    (data : Bytes) (pos : ℕ) (xs : List α) (q : ℕ)
    (h : readRepeat rd n data pos = some (xs, q)) : xs.length = n := by
  induction n generalizing pos xs q with
  | zero =>
    simp only [readRepeat, Option.some.injEq, Prod.mk.injEq] at h
    rw [← h.1]
    rfl
  | succ k ih =>
    simp only [readRepeat, Option.bind_eq_bind, Option.bind_eq_some, Option.some.injEq,
      Prod.mk.injEq] at h
    obtain ⟨r, _, rest, h2, h3, _⟩ := h
    rw [← h3]
    simp [ih r.2 rest.1 rest.2 h2]

theorem readI16s_length (n : ℕ) (data : Bytes) (pos : ℕ) (l : List ℤ) (p : ℕ)
    (h : readI16s n data pos = some (l, p)) : l.length = n := by
  simp only [readI16s, Option.bind_eq_bind, Option.bind_eq_some, Option.some.injEq,
    Prod.mk.injEq] at h
  obtain ⟨r, _, h2, _⟩ := h
  rw [← h2]
  exact unpackI16s_length n r.1

/-- C6: for every MRZ datagram that read_EMdgmMRZ decodes, the cursor it
returns is exactly the entry cursor plus the declared
header.numBytesDgm, whatever the explicit sub-struct reads consumed —
the unconditional absolute seek of kmall.py:914. -/
theorem read_EMdgmMRZ_final_cursor (data : Bytes) (start : ℕ) (dg : EMdgmMRZ) (pos : ℕ)
    (h : read_EMdgmMRZ data start = some (dg, pos)) :
    pos = start + dg.header.numBytesDgm := by
  simp only [read_EMdgmMRZ, Option.bind_eq_bind, Option.bind_eq_some, Option.some.injEq,
    Prod.mk.injEq] at h
  obtain ⟨hd, _, pt, _, cm, _, pi, _, sc, _, rx, _, ed, _, sd, _, si, _, hrec, hpos⟩ := h
  rw [← hpos, ← hrec]

/-- C5: for every MRZ datagram that read_EMdgmMRZ decodes, the seabed
image array has exactly as many int16 samples as the sum of the
per-sounding SInumSamples values, and the sounding list runs over
exactly numExtraDetections + numSoundingsMaxMain entries. -/
theorem read_EMdgmMRZ_SIsample_count (data : Bytes) (start : ℕ) (dg : EMdgmMRZ) (pos : ℕ)
    (h : read_EMdgmMRZ data start = some (dg, pos)) :
    dg.SIsample_desidB.length = (dg.sounding.map (fun s => s.SInumSamples)).sum ∧
    dg.sounding.length = dg.rxInfo.numExtraDetections + dg.rxInfo.numSoundingsMaxMain := by
  simp only [read_EMdgmMRZ, Option.bind_eq_bind, Option.bind_eq_some, Option.some.injEq,
    Prod.mk.injEq] at h
  obtain ⟨hd, _, pt, _, cm, _, pi, _, sc, _, rx, _, ed, _, sd, h8, si, h9, hrec, hpos⟩ := h
  rw [← hrec]
  exact ⟨readI16s_length _ data sd.2 si.1 si.2 h9,
    readRepeat_length _ _ data ed.2 sd.1 sd.2 h8⟩

/-- A minimal well-formed MRZ datagram: no tx sectors, no extra
detection classes, no soundings, no imagery; 212 bytes in all, with the
declared length 212. -/
def mrzBufC6 : Bytes :=
  (packU32 212 ++ [35, 77, 82, 90] ++ [1, 0] ++ packU16 0 ++ packU32 0 ++ packU32 0)
  ++ (packU16 1 ++ packU16 1)
  ++ (packU16 12 ++ packU16 0 ++ List.replicate 8 0)
  ++ (packU16 144 ++ List.replicate 90 0 ++ packU16 0 ++ packU16 36 ++ List.replicate 48 0)
  ++ (packU16 32 ++ packU16 0 ++ packU16 0 ++ packU16 0 ++ List.replicate 16 0
      ++ packU16 0 ++ packU16 0 ++ packU16 0 ++ packU16 0)

/-- Fallback record for Option.getD. -/
def mrzDummy : EMdgmMRZ :=
  { header := ⟨0, [], 0, 0, 0, 0, 0⟩, partition := ⟨0, 0⟩,
    cmnPart := ⟨0, 0, 0, 0, 0, 0, 0, 0, 0, 0⟩, pingInfo := ⟨0, 0, 0⟩,
    txSectorInfo := [], rxInfo := ⟨0, 0, 0, 0, 0, 0, 0, 0⟩,
    extraDetClassInfo := [], sounding := [], SIsample_desidB := [] }

/-- The record and final cursor decoded from mrzBufC6. -/
def mrzC6 : EMdgmMRZ × ℕ := (read_EMdgmMRZ mrzBufC6 0).getD (mrzDummy, 0)

set_option maxRecDepth 40000 in
theorem read_EMdgmMRZ_final_cursor_witness :
    mrzC6.2 = 0 + mrzC6.1.header.numBytesDgm :=
  read_EMdgmMRZ_final_cursor mrzBufC6 0 mrzC6.1 mrzC6.2 (by decide)

/-- A well-formed MRZ datagram with one sounding declaring two seabed
image samples, followed by exactly those two int16 samples; 336 bytes in
all, with the declared length 336. -/
def mrzBufC5 : Bytes :=
  (packU32 336 ++ [35, 77, 82, 90] ++ [1, 0] ++ packU16 0 ++ packU32 0 ++ packU32 0)
  ++ (packU16 1 ++ packU16 1)
  ++ (packU16 12 ++ packU16 0 ++ List.replicate 8 0)
  ++ (packU16 144 ++ List.replicate 90 0 ++ packU16 0 ++ packU16 36 ++ List.replicate 48 0)
  ++ (packU16 32 ++ packU16 1 ++ packU16 1 ++ packU16 120 ++ List.replicate 16 0
      ++ packU16 0 ++ packU16 0 ++ packU16 0 ++ packU16 0)
  ++ (packU16 5 ++ [0, 0, 1] ++ List.replicate 113 0 ++ packU16 2)
  ++ ([1, 0] ++ [255, 255])

/-- The record and final cursor decoded from mrzBufC5. -/
def mrzC5 : EMdgmMRZ × ℕ := (read_EMdgmMRZ mrzBufC5 0).getD (mrzDummy, 0)

set_option maxRecDepth 40000 in
theorem read_EMdgmMRZ_SIsample_count_witness :
    mrzC5.1.SIsample_desidB.length = (mrzC5.1.sounding.map (fun s => s.SInumSamples)).sum ∧
    mrzC5.1.sounding.length =
      mrzC5.1.rxInfo.numExtraDetections + mrzC5.1.rxInfo.numSoundingsMaxMain :=
  read_EMdgmMRZ_SIsample_count mrzBufC5 0 mrzC5.1 mrzC5.2 (by decide)

/-- Concrete instance of the amended C3 theorem. -/
theorem uintXScaled_eq_floor_witness :
    uintXScaled [1, 3] (1 / 2) =
      (uintXPlan [1, 3]).valuesToEncode.map
        (fun v => ⌊(v - (uintXPlan [1, 3]).minv) *
            scaleFactor (uintXPlan [1, 3]).maxv (uintXPlan [1, 3]).minv
              (selectedBits [1, 3] (1 / 2))⌋) ∧
    ((uintXPlan [1, 3]).maxv = (uintXPlan [1, 3]).minv →
      scaleFactor (uintXPlan [1, 3]).maxv (uintXPlan [1, 3]).minv
        (selectedBits [1, 3] (1 / 2)) = 1) :=
  uintXScaled_eq_floor [1, 3] (1 / 2) (by decide)

/-! ## C8 -/

/-- C8: encodeAndCompressSoundings mutates its input record.  The table
the caller holds after the call has, entry by entry, its reflectivity
columns rounded to 2 decimals where the detection is valid and replaced
by the mode of the rounded valid-detection entries where
detectionMethod is 0; all other columns are the ones passed in.  The
input table is therefore not left unchanged by encoding (see the
witness for a concrete changed entry). -/
theorem encodeAndCompressSoundings_mutates (dg : SoundingTable) (i : ℕ)
    (hlen1 : dg.detectionMethod.length = dg.reflectivity1_dB.length)
    (hlen2 : dg.detectionMethod.length = dg.reflectivity2_dB.length)
    (hi : i < dg.detectionMethod.length) :
    (encodeAndCompressSoundings dg).2 =
      { dg with
        reflectivity1_dB := mutateReflectivity dg.detectionMethod dg.reflectivity1_dB
        reflectivity2_dB := mutateReflectivity dg.detectionMethod dg.reflectivity2_dB } ∧
    (encodeAndCompressSoundings dg).2.reflectivity1_dB.getD i 0 =
      (if dg.detectionMethod.getD i 0 ≠ 0 then round2 (dg.reflectivity1_dB.getD i 0)
       else modeOf (validSubset dg.detectionMethod (dg.reflectivity1_dB.map round2))) ∧
    (encodeAndCompressSoundings dg).2.reflectivity2_dB.getD i 0 =
      (if dg.detectionMethod.getD i 0 ≠ 0 then round2 (dg.reflectivity2_dB.getD i 0)
       else modeOf (validSubset dg.detectionMethod (dg.reflectivity2_dB.map round2))) := by
  refine ⟨rfl, ?_, ?_⟩
  · have hz : i < (mutateReflectivity dg.detectionMethod dg.reflectivity1_dB).length := by
      simp [mutateReflectivity, replaceNonDetects, ← hlen1]
      omega
    have : (encodeAndCompressSoundings dg).2.reflectivity1_dB =
        mutateReflectivity dg.detectionMethod dg.reflectivity1_dB := rfl
    rw [this, List.getD_eq_getElem _ _ hz]
    unfold mutateReflectivity replaceNonDetects
    rw [List.getElem_zipWith]
    rw [List.getD_eq_getElem _ _ hi,
      List.getD_eq_getElem _ _ (hlen1 ▸ hi), List.getElem_map]
  · have hz : i < (mutateReflectivity dg.detectionMethod dg.reflectivity2_dB).length := by
      simp [mutateReflectivity, replaceNonDetects, ← hlen2]
      omega
    have : (encodeAndCompressSoundings dg).2.reflectivity2_dB =
        mutateReflectivity dg.detectionMethod dg.reflectivity2_dB := rfl
    rw [this, List.getD_eq_getElem _ _ hz]
    unfold mutateReflectivity replaceNonDetects
    rw [List.getElem_zipWith]
    rw [List.getD_eq_getElem _ _ hi,
      List.getD_eq_getElem _ _ (hlen2 ▸ hi), List.getElem_map]

/-- A two-sounding table whose second entry is a non-detect with a
reflectivity value far from the valid entry. -/
def tableC8 : SoundingTable :=
  { soundingIndex := [0, 1], txSectorNumb := [0, 0], detectionType := [0, 0],
    detectionMethod := [1, 0], rejectionInfo1 := [0, 0], rejectionInfo2 := [0, 0],
    postProcessingInfo := [0, 0], detectionClass := [0, 0],
    detectionConfidenceLevel := [0, 0], padding := [0, 0],
    rangeFactor := [0, 0], qualityFactor := [0, 0],
    detectionUncertaintyVer_m := [0, 0], detectionUncertaintyHor_m := [0, 0],
    detectionWindowLength_sec := [0, 0], echoLength_sec := [0, 0],
    WCBeamNumb := [0, 0], WCrange_samples := [0, 0],
    WCNomBeamAngleAcross_deg := [0, 0], meanAbsCoeff_dbPerkm := [0, 0],
    reflectivity1_dB := [- 41 / 8, - 100], reflectivity2_dB := [3 / 2, - 73 / 4],
    receiverSensitivityApplied_dB := [0, 0], sourceLevelApplied_dB := [0, 0],
    BScalibration_dB := [0, 0], TVG_dB := [0, 0], beamAngleReRx_deg := [0, 0],
    beamAngleCorrection_deg := [0, 0], twoWayTravelTime_sec := [0, 0],
    twoWayTravelTimeCorrection_sec := [0, 0], deltaLatitude_deg := [0, 0],
    deltaLongitude_deg := [0, 0], z_reRefPoint_m := [0, 0], y_reRefPoint_m := [0, 0],
    x_reRefPoint_m := [0, 0], beamIncAngleAdj_deg := [0, 0],
    realTimeCleanInfo := [0, 0], SIstartRange_samples := [0, 0],
    SIcentreSample := [0, 0], SInumSamples := [0, 0] }

/-- Concrete instance of the C8 theorem at the non-detect entry, plus
the visible effect: the caller's table is no longer the one passed in
(its second reflectivity1 entry became the valid-subset mode -41/8, not
the original -100). -/
theorem encodeAndCompressSoundings_mutates_witness :
    ((encodeAndCompressSoundings tableC8).2 =
      { tableC8 with
        reflectivity1_dB := mutateReflectivity tableC8.detectionMethod tableC8.reflectivity1_dB
        reflectivity2_dB :=
          mutateReflectivity tableC8.detectionMethod tableC8.reflectivity2_dB } ∧
      (encodeAndCompressSoundings tableC8).2.reflectivity1_dB.getD 1 0 =
        (if tableC8.detectionMethod.getD 1 0 ≠ 0 then
          round2 (tableC8.reflectivity1_dB.getD 1 0)
         else modeOf (validSubset tableC8.detectionMethod
            (tableC8.reflectivity1_dB.map round2))) ∧
      (encodeAndCompressSoundings tableC8).2.reflectivity2_dB.getD 1 0 =
        (if tableC8.detectionMethod.getD 1 0 ≠ 0 then
          round2 (tableC8.reflectivity2_dB.getD 1 0)
         else modeOf (validSubset tableC8.detectionMethod
            (tableC8.reflectivity2_dB.map round2)))) ∧
    (encodeAndCompressSoundings tableC8).2 ≠ tableC8 :=
  ⟨encodeAndCompressSoundings_mutates tableC8 1 (by decide) (by decide) (by decide),
    by decide⟩

/-! ## C9 -/

theorem unpackU16s_length (n : ℕ) (b : Bytes) : (unpackU16s n b).length = n := by
  induction n generalizing b with
  | zero => rfl
  | succ k ih => simp [unpackU16s, ih]

/-- C9: whatever buffer expandAndDecodeSoundings is given (within the
extent the decoder consumes), the padding and realTimeCleanInfo columns
of the returned table are runs of exactly the requested number of
zeros: these columns are not carried through the encoding at all but
regenerated on decode (kmall.py:2740 and 2826). -/
theorem expandAndDecodeSoundings_regenerated_columns (buffer : Bytes) (records : ℕ)
    (h : 2 * records ≤ (bz2decompress buffer).length) :
    (expandAndDecodeSoundings buffer records).padding = List.replicate records 0 ∧
    (expandAndDecodeSoundings buffer records).realTimeCleanInfo =
      List.replicate records 0 := by
  constructor
  · show List.replicate (unpackU16s records (bz2decompress buffer)).length 0 = _
    rw [unpackU16s_length]
  · show List.replicate (unpackU16s records (bz2decompress buffer)).length 0 = _
    rw [unpackU16s_length]

/-- Concrete instance of the C9 theorem. -/
theorem expandAndDecodeSoundings_regenerated_columns_witness :
    (expandAndDecodeSoundings (List.replicate 4 0) 1).padding = List.replicate 1 0 ∧
    (expandAndDecodeSoundings (List.replicate 4 0) 1).realTimeCleanInfo =
      List.replicate 1 0 :=
  expandAndDecodeSoundings_regenerated_columns (List.replicate 4 0) 1 (by decide)

/-! ## Toolkit for the C1 round trip: byte-run round trips -/

theorem unpackU16_packU16 (n : ℕ) (r : Bytes) (h : n < 65536) :
    unpackU16 (packU16 n ++ r) = n := by
  simp only [unpackU16, packU16, List.cons_append, List.nil_append, List.getD_cons_zero,
    List.getD_cons_succ]
  omega

theorem packU16s_length (l : List ℕ) : (packU16s l).length = 2 * l.length := by
  induction l with
  | nil => rfl
  | cons x t ih => simp [packU16s, packU16, List.flatMap_cons] at ih ⊢; omega

theorem unpackU16s_packU16s (l : List ℕ) (r : Bytes) (h : ∀ x ∈ l, x < 65536) :
    unpackU16s l.length (packU16s l ++ r) = l := by
  induction l with
  | nil => rfl
  | cons x t ih =>
    have hx : unpackU16s (x :: t).length (packU16s (x :: t) ++ r) =
        unpackU16 (packU16 x ++ (packU16s t ++ r)) ::
          unpackU16s t.length (packU16s t ++ r) := by
      simp [packU16s, packU16, unpackU16s, List.flatMap_cons]
    rw [hx, unpackU16_packU16 x _ (h x (List.mem_cons_self x t)),
      ih (fun y hy => h y (List.mem_cons_of_mem x hy))]

theorem takeU16s_append (l : List ℕ) (r : Bytes) (n : ℕ) (hn : l.length = n)
    (h : ∀ x ∈ l, x < 65536) :
    takeU16s n (packU16s l ++ r) = (l, r) := by
  subst hn
  unfold takeU16s
  rw [unpackU16s_packU16s l r h, ← packU16s_length l, List.drop_left]

theorem unpackU8s_exact (l : List ℕ) (r : Bytes) : unpackU8s l.length (l ++ r) = l := by
  induction l with
  | nil => rfl
  | cons x t ih => simp [unpackU8s, ih]

theorem packU8s_id (l : List ℕ) (h : ∀ x ∈ l, x < 256) : packU8s l = l := by
  unfold packU8s
  induction l with
  | nil => rfl
  | cons x t ih =>
    rw [List.map_cons, Nat.mod_eq_of_lt (h x (List.mem_cons_self x t)),
      ih (fun y hy => h y (List.mem_cons_of_mem x hy))]

theorem takeU8s_append (l : List ℕ) (r : Bytes) (n : ℕ) (hn : l.length = n)
    (h : ∀ x ∈ l, x < 256) :
    takeU8s n (packU8s l ++ r) = (l, r) := by
  subst hn
  have hid : packU8s l = l := packU8s_id l h
  unfold takeU8s
  rw [hid, unpackU8s_exact l r, List.drop_left]

theorem unpackU32_packU32 (n : ℕ) (h : n < 4294967296) (r : Bytes) :
    unpackU32 (packU32 n ++ r) = n := by
  simp only [unpackU32, packU32, List.cons_append, List.nil_append, List.getD_cons_zero,
    List.getD_cons_succ]
  omega

theorem unpackI32_packI32 (z : ℤ) (h1 : -2147483648 ≤ z) (h2 : z < 2147483648) (r : Bytes) :
    unpackI32 (packI32 z ++ r) = z := by
  unfold unpackI32 packI32
  rw [unpackU32_packU32 _ (by omega) r]
  simp only []
  split_ifs with hcase <;> omega

theorem unpackI32_packI32_self (z : ℤ) (h1 : -2147483648 ≤ z) (h2 : z < 2147483648) :
    unpackI32 (packI32 z) = z := by
  have h := unpackI32_packI32 z h1 h2 []
  rwa [List.append_nil] at h

/-! ## Toolkit for the C1 round trip: the encodeArrayIntoUintX block -/

theorem uintXPlan_values_length (A : List ℚ) :
    (uintXPlan A).valuesToEncode.length = A.length - 1 := by
  simp only [uintXPlan]
  split
  · simp
  · exact npdiff_length A

theorem uintXScaled_length (A : List ℚ) (res : ℚ) :
    (uintXScaled A res).length = A.length - 1 := by
  simp only [uintXScaled]
  rw [List.length_map, uintXPlan_values_length]

theorem selectedBits_cases (A : List ℚ) (res : ℚ) :
    selectedBits A res = 8 ∨ selectedBits A res = 16 ∨ selectedBits A res = 32 := by
  unfold selectedBits uintXBits
  split_ifs <;> simp

theorem flatMap_packU32_length (l : List ℕ) : (l.flatMap packU32).length = 4 * l.length := by
  induction l with
  | nil => rfl
  | cons x t ih => simp [List.flatMap_cons, packU32] at ih ⊢; omega

theorem length_comp_packU32_sum (l : List ℤ) :
    (List.map ((List.length ∘ packU32) ∘ Int.toNat) l).sum = 4 * l.length := by
  induction l with
  | nil => rfl
  | cons x t ih => simp [packU32] at ih ⊢; omega

theorem encodeArrayIntoUintX_length (A : List ℚ) (res : ℚ) :
    (encodeArrayIntoUintX A res).length =
      17 + (A.length - 1) *
        (if selectedBits A res = 8 then 1
         else if selectedBits A res = 16 then 2 else 4) := by
  rcases selectedBits_cases A res with hb | hb | hb <;>
    simp [encodeArrayIntoUintX, hb, packF32, packI32, packU32, packU16s_length,
      flatMap_packU32_length, packU8s, uintXScaled_length,
      length_comp_packU32_sum] <;>
    omega

theorem decodeUintXintoArray_snd (a b c : ℚ) (z : ℤ) (bits : ℕ) (payload rest : Bytes)
    (hz1 : -2147483648 ≤ z) (hz2 : z < 2147483648) :
    (decodeUintXintoArray
        (packF32 a ++ (packF32 b ++ (packF32 c ++
          (packI32 z ++ ([bits % 256] ++ (payload ++ rest))))))).2 =
      17 + z.natAbs *
        (if bits % 256 = 8 then 1 else if bits % 256 = 16 then 2 else 4) := by
  have hdrop : (packF32 a ++ (packF32 b ++ (packF32 c ++
      (packI32 z ++ ([bits % 256] ++ (payload ++ rest)))))).drop 12 =
      packI32 z ++ ([bits % 256] ++ (payload ++ rest)) := rfl
  have htake : (packI32 z ++ ([bits % 256] ++ (payload ++ rest))).take 4 = packI32 z := rfl
  have hgetD : (packF32 a ++ (packF32 b ++ (packF32 c ++
      (packI32 z ++ ([bits % 256] ++ (payload ++ rest)))))).getD 16 0 = bits % 256 := rfl
  unfold decodeUintXintoArray
  simp only [hdrop, htake, hgetD, unpackI32_packI32_self z hz1 hz2]

theorem decodeUintXintoArray_encode_snd (A : List ℚ) (res : ℚ) (rest : Bytes)
    (h2 : 2 ≤ A.length) (hN : A.length ≤ 2147483648) :
    (decodeUintXintoArray (encodeArrayIntoUintX A res ++ rest)).2 =
      (encodeArrayIntoUintX A res).length := by
  have hshape : encodeArrayIntoUintX A res ++ rest =
      packF32 (A.headD 0) ++ (packF32 (uintXPlan A).minv ++ (packF32 (uintXPlan A).maxv ++
        (packI32 (if (uintXPlan A).differential then -((uintXScaled A res).length : ℤ)
                  else ((uintXScaled A res).length : ℤ)) ++
          ([selectedBits A res % 256] ++
            ((if selectedBits A res = 8 then packU8s ((uintXScaled A res).map Int.toNat)
              else if selectedBits A res = 16 then
                packU16s ((uintXScaled A res).map Int.toNat)
              else ((uintXScaled A res).map Int.toNat).flatMap packU32) ++ rest))))) := by
    simp [encodeArrayIntoUintX, List.append_assoc]
  have hlen : (uintXScaled A res).length = A.length - 1 := uintXScaled_length A res
  have hz1 : -2147483648 ≤
      (if (uintXPlan A).differential then -((uintXScaled A res).length : ℤ)
       else ((uintXScaled A res).length : ℤ)) := by
    split_ifs <;> omega
  have hz2 : (if (uintXPlan A).differential then -((uintXScaled A res).length : ℤ)
      else ((uintXScaled A res).length : ℤ)) < 2147483648 := by
    split_ifs <;> omega
  have habs : (if (uintXPlan A).differential then -((uintXScaled A res).length : ℤ)
      else ((uintXScaled A res).length : ℤ)).natAbs = A.length - 1 := by
    split_ifs <;> simp [hlen]
  rw [hshape, decodeUintXintoArray_snd _ _ _ _ _ _ _ hz1 hz2, habs,
    encodeArrayIntoUintX_length A res]
  rcases selectedBits_cases A res with hb | hb | hb <;> rw [hb]

theorem takeUintX_encode_snd (A : List ℚ) (res : ℚ) (rest : Bytes)
    (h2 : 2 ≤ A.length) (hN : A.length ≤ 2147483648) :
    (takeUintX (encodeArrayIntoUintX A res ++ rest)).2 = rest := by
  show (encodeArrayIntoUintX A res ++ rest).drop
    (decodeUintXintoArray (encodeArrayIntoUintX A res ++ rest)).2 = rest
  rw [decodeUintXintoArray_encode_snd A res rest h2 hN, List.drop_left]

/-! ## Toolkit for the C1 round trip: the packed triple column -/

/-- Integer-valued form of tripleRoundTripNat, ready for list induction. -/
theorem tripleRoundTripInt (a b c : ℤ)
    (h : 0 ≤ a ∧ a < 3 ∧ 0 ≤ b ∧ b < 16 ∧ 0 ≤ c ∧ c < 10 ∧
      tripleDecodable a.toNat b.toNat c.toNat) :
    (packDetTriple a b c).toNat < 256 ∧
    unpackDetTriple (packDetTriple a b c).toNat = (a, b, c) := by
  obtain ⟨ha0, ha, hb0, hb, hc0, hc, hd⟩ := h
  lift a to ℕ using ha0 with a hra
  lift b to ℕ using hb0 with b hrb
  lift c to ℕ using hc0 with c hrc
  exact tripleRoundTripNat a (by exact_mod_cast ha) b (by exact_mod_cast hb) c
    (by exact_mod_cast hc) (by simpa using hd)

/-- The whole packed-triple column decodes back to the three original
columns, with every packed value a byte, under the decodability bounds. -/
theorem triple_columns_roundtrip (dT dM tS : List ℤ)
    (hlen1 : dM.length = dT.length) (hlen2 : tS.length = dT.length)
    (hok : ∀ p ∈ dT.zip (dM.zip tS),
      0 ≤ p.1 ∧ p.1 < 3 ∧ 0 ≤ p.2.1 ∧ p.2.1 < 16 ∧ 0 ≤ p.2.2 ∧ p.2.2 < 10 ∧
        tripleDecodable p.1.toNat p.2.1.toNat p.2.2.toNat) :
    (((dT.zip (dM.zip tS)).map (fun p => packDetTriple p.1 p.2.1 p.2.2)).map
        Int.toNat).map (fun u => (unpackDetTriple u).1) = dT ∧
    (((dT.zip (dM.zip tS)).map (fun p => packDetTriple p.1 p.2.1 p.2.2)).map
        Int.toNat).map (fun u => (unpackDetTriple u).2.1) = dM ∧
    (((dT.zip (dM.zip tS)).map (fun p => packDetTriple p.1 p.2.1 p.2.2)).map
        Int.toNat).map (fun u => (unpackDetTriple u).2.2) = tS ∧
    (∀ x ∈ ((dT.zip (dM.zip tS)).map (fun p => packDetTriple p.1 p.2.1 p.2.2)).map
        Int.toNat, x < 256) ∧
    (((dT.zip (dM.zip tS)).map (fun p => packDetTriple p.1 p.2.1 p.2.2)).map
        Int.toNat).length = dT.length := by
  induction dT generalizing dM tS with
  | nil =>
    have h1 : dM = [] := List.eq_nil_of_length_eq_zero hlen1
    have h2 : tS = [] := List.eq_nil_of_length_eq_zero hlen2
    subst h1; subst h2
    simp
  | cons x t ih =>
    cases dM with
    | nil => simp at hlen1
    | cons y m =>
      cases tS with
      | nil => simp at hlen2
      | cons z w =>
        have hhead := tripleRoundTripInt x y z
          (hok (x, y, z) (by simp [List.zip_cons_cons]))
        have htail := ih m w (by simpa using hlen1) (by simpa using hlen2)
          (fun p hp => hok p (by simp [List.zip_cons_cons]; right; simpa using hp))
        obtain ⟨e1, e2, e3, e4, e5⟩ := htail
        refine ⟨?_, ?_, ?_, ?_, ?_⟩
        · simp only [List.zip_cons_cons, List.map_cons]
          rw [e1, hhead.2]
        · simp only [List.zip_cons_cons, List.map_cons]
          rw [e2, hhead.2]
        · simp only [List.zip_cons_cons, List.map_cons]
          rw [e3, hhead.2]
        · simp only [List.zip_cons_cons, List.map_cons]
          intro u hu
          rcases List.mem_cons.mp hu with rfl | hu
          · exact hhead.1
          · exact e4 u hu
        · simp only [List.zip_cons_cons, List.map_cons, List.length_cons, e5]

/-! ## C1 -/

theorem mutateReflectivity_length (dm : List ℤ) (v : List ℚ) :
    (mutateReflectivity dm v).length = min dm.length v.length := by
  simp [mutateReflectivity, replaceNonDetects]

theorem takeU16s_self (l : List ℕ) (n : ℕ) (hn : l.length = n)
    (h : ∀ x ∈ l, x < 65536) : takeU16s n (packU16s l) = (l, []) := by
  have happ := takeU16s_append l [] n hn h
  rwa [List.append_nil] at happ

/-- The hypotheses under which encodeAndCompressSoundings is defined
behavior in the Python source: at least two soundings (np.diff of a
single value raises), all encoded columns of one common length, the raw
uint16 and uint8 columns within their struct.pack ranges, the packed
triple decodable (see C4), the rounded per-sector absorption values
within uint16 range, sector numbers indexable in the per-sector value
table (kmall.py:2772 raises IndexError otherwise), and at least one
valid detection (stats.mode of an empty list raises). -/
def TableEncodable (dg : SoundingTable) (N : ℕ) : Prop :=
  2 ≤ N ∧ N ≤ 2147483648 ∧
  dg.soundingIndex.length = N ∧
  dg.detectionType.length = N ∧
  dg.detectionMethod.length = N ∧
  dg.txSectorNumb.length = N ∧
  dg.rejectionInfo1.length = N ∧
  dg.rejectionInfo2.length = N ∧
  dg.postProcessingInfo.length = N ∧
  dg.detectionClass.length = N ∧
  dg.detectionConfidenceLevel.length = N ∧
  dg.rangeFactor.length = N ∧
  dg.qualityFactor.length = N ∧
  dg.detectionUncertaintyVer_m.length = N ∧
  dg.detectionUncertaintyHor_m.length = N ∧
  dg.detectionWindowLength_sec.length = N ∧
  dg.echoLength_sec.length = N ∧
  dg.WCBeamNumb.length = N ∧
  dg.WCrange_samples.length = N ∧
  dg.WCNomBeamAngleAcross_deg.length = N ∧
  dg.reflectivity1_dB.length = N ∧
  dg.reflectivity2_dB.length = N ∧
  dg.receiverSensitivityApplied_dB.length = N ∧
  dg.sourceLevelApplied_dB.length = N ∧
  dg.BScalibration_dB.length = N ∧
  dg.TVG_dB.length = N ∧
  dg.beamAngleReRx_deg.length = N ∧
  dg.beamAngleCorrection_deg.length = N ∧
  dg.twoWayTravelTime_sec.length = N ∧
  dg.twoWayTravelTimeCorrection_sec.length = N ∧
  dg.deltaLatitude_deg.length = N ∧
  dg.deltaLongitude_deg.length = N ∧
  dg.z_reRefPoint_m.length = N ∧
  dg.y_reRefPoint_m.length = N ∧
  dg.x_reRefPoint_m.length = N ∧
  dg.beamIncAngleAdj_deg.length = N ∧
  dg.SIstartRange_samples.length = N ∧
  dg.SIcentreSample.length = N ∧
  dg.SInumSamples.length = N ∧
  (∀ x ∈ dg.soundingIndex, x < 65536) ∧
  (∀ x ∈ dg.WCBeamNumb, x < 65536) ∧
  (∀ x ∈ dg.WCrange_samples, x < 65536) ∧
  (∀ x ∈ dg.SIstartRange_samples, x < 65536) ∧
  (∀ x ∈ dg.SIcentreSample, x < 65536) ∧
  (∀ x ∈ dg.SInumSamples, x < 65536) ∧
  (∀ x ∈ dg.rejectionInfo1, x < 256) ∧
  (∀ x ∈ dg.rejectionInfo2, x < 256) ∧
  (∀ x ∈ dg.postProcessingInfo, x < 256) ∧
  (∀ x ∈ dg.detectionClass, x < 256) ∧
  (∀ x ∈ dg.detectionConfidenceLevel, x < 256) ∧
  (∀ p ∈ dg.detectionType.zip (dg.detectionMethod.zip dg.txSectorNumb),
    0 ≤ p.1 ∧ p.1 < 3 ∧ 0 ≤ p.2.1 ∧ p.2.1 < 16 ∧ 0 ≤ p.2.2 ∧ p.2.2 < 10 ∧
      tripleDecodable p.1.toNat p.2.1.toNat p.2.2.toNat) ∧
  (∀ z ∈ sectorMeanVals dg.txSectorNumb dg.meanAbsCoeff_dbPerkm, 0 ≤ z ∧ z < 65536) ∧
  (∀ s ∈ dg.txSectorNumb, s.toNat < (firstOccurrenceIdxs dg.txSectorNumb).length) ∧
  (∃ x ∈ dg.detectionMethod, x ≠ 0)

set_option synthInstance.maxSize 5000 in
set_option synthInstance.maxHeartbeats 2000000 in
set_option maxRecDepth 20000 in
instance (dg : SoundingTable) (N : ℕ) : Decidable (TableEncodable dg N) := by
  unfold TableEncodable; infer_instance

/-- The decode of the encode of a sounding table, at the table's own
sounding count, as in the round trip of the compression CLI. -/
def roundTrippedSoundings (dg : SoundingTable) (N : ℕ) : SoundingTable :=
  expandAndDecodeSoundings (encodeAndCompressSoundings dg).1 N

/-- C1 amended: for every encodable sounding table, the round trip
through encodeAndCompressSoundings and expandAndDecodeSoundings
restores exactly the columns that are packed as raw integers
(soundingIndex, rejectionInfo1, rejectionInfo2, postProcessingInfo,
detectionClass, detectionConfidenceLevel, WCBeamNumb, WCrange_samples,
SIstartRange_samples, SIcentreSample, SInumSamples) together with the
three byte-packed columns (detectionType, detectionMethod,
txSectorNumb).  The remaining columns are NOT restored exactly: the
float-valued columns pass through the lossy quantizing codec of
encodeArrayIntoUintX, meanAbsCoeff_dbPerkm is rounded to hundredths and
re-broadcast per sector, padding and realTimeCleanInfo are regenerated
as zeros (C9), and both reflectivity columns are rounded, mode-filled
and sentinel-restored (C8); the claim of equality in every field except
the two reflectivity columns is refuted by the counterexample below. -/
theorem soundings_roundtrip_integer_columns (dg : SoundingTable) (N : ℕ)
    (h : TableEncodable dg N) :
    (roundTrippedSoundings dg N).soundingIndex = dg.soundingIndex ∧
    (roundTrippedSoundings dg N).detectionType = dg.detectionType ∧
    (roundTrippedSoundings dg N).detectionMethod = dg.detectionMethod ∧
    (roundTrippedSoundings dg N).txSectorNumb = dg.txSectorNumb ∧
    (roundTrippedSoundings dg N).rejectionInfo1 = dg.rejectionInfo1 ∧
    (roundTrippedSoundings dg N).rejectionInfo2 = dg.rejectionInfo2 ∧
    (roundTrippedSoundings dg N).postProcessingInfo = dg.postProcessingInfo ∧
    (roundTrippedSoundings dg N).detectionClass = dg.detectionClass ∧
    (roundTrippedSoundings dg N).detectionConfidenceLevel =
      dg.detectionConfidenceLevel ∧
    (roundTrippedSoundings dg N).WCBeamNumb = dg.WCBeamNumb ∧
    (roundTrippedSoundings dg N).WCrange_samples = dg.WCrange_samples ∧
    (roundTrippedSoundings dg N).SIstartRange_samples = dg.SIstartRange_samples ∧
    (roundTrippedSoundings dg N).SIcentreSample = dg.SIcentreSample ∧
    (roundTrippedSoundings dg N).SInumSamples = dg.SInumSamples := by
  obtain ⟨h2, hN, hsi, hdt, hdm, htx, hr1, hr2, hpp, hdc, hdcl,
    hrf, hqf, hduv, hduh, hdwl, hel, hwb, hwr, hwn,
    hre1, hre2, hrs, hsl, hbsc, htvg, hbar, hbac, htwt, htwtc, hlat, hlon,
    hzz, hyy, hxx, hbia, hsir, hsic, hsin,
    bsi, bwb, bwr, bsir, bsic, bsin, br1, br2, bpp, bdc, bdcl,
    htrip, hmv, hsec, hvalid⟩ := h
  obtain ⟨et1, et2, et3, ebnd, elen⟩ :=
    triple_columns_roundtrip dg.detectionType dg.detectionMethod dg.txSectorNumb
      (by rw [hdm, hdt]) (by rw [htx, hdt]) htrip
  have elenN : (((dg.detectionType.zip (dg.detectionMethod.zip dg.txSectorNumb)).map
      (fun p => packDetTriple p.1 p.2.1 p.2.2)).map Int.toNat).length = N := by
    rw [elen, hdt]
  have ftwo0 : 2 ≤ dg.rangeFactor.length := by rw [hrf]; exact h2
  have fle0 : dg.rangeFactor.length ≤ 2147483648 := by rw [hrf]; exact hN
  have ftwo1 : 2 ≤ dg.qualityFactor.length := by rw [hqf]; exact h2
  have fle1 : dg.qualityFactor.length ≤ 2147483648 := by rw [hqf]; exact hN
  have ftwo2 : 2 ≤ dg.detectionUncertaintyVer_m.length := by rw [hduv]; exact h2
  have fle2 : dg.detectionUncertaintyVer_m.length ≤ 2147483648 := by rw [hduv]; exact hN
  have ftwo3 : 2 ≤ dg.detectionUncertaintyHor_m.length := by rw [hduh]; exact h2
  have fle3 : dg.detectionUncertaintyHor_m.length ≤ 2147483648 := by rw [hduh]; exact hN
  have ftwo4 : 2 ≤ dg.detectionWindowLength_sec.length := by rw [hdwl]; exact h2
  have fle4 : dg.detectionWindowLength_sec.length ≤ 2147483648 := by rw [hdwl]; exact hN
  have ftwo5 : 2 ≤ dg.echoLength_sec.length := by rw [hel]; exact h2
  have fle5 : dg.echoLength_sec.length ≤ 2147483648 := by rw [hel]; exact hN
  have ftwo6 : 2 ≤ dg.WCNomBeamAngleAcross_deg.length := by rw [hwn]; exact h2
  have fle6 : dg.WCNomBeamAngleAcross_deg.length ≤ 2147483648 := by rw [hwn]; exact hN
  have ftwo7 : 2 ≤ dg.receiverSensitivityApplied_dB.length := by rw [hrs]; exact h2
  have fle7 : dg.receiverSensitivityApplied_dB.length ≤ 2147483648 := by rw [hrs]; exact hN
  have ftwo8 : 2 ≤ dg.sourceLevelApplied_dB.length := by rw [hsl]; exact h2
  have fle8 : dg.sourceLevelApplied_dB.length ≤ 2147483648 := by rw [hsl]; exact hN
  have ftwo9 : 2 ≤ dg.BScalibration_dB.length := by rw [hbsc]; exact h2
  have fle9 : dg.BScalibration_dB.length ≤ 2147483648 := by rw [hbsc]; exact hN
  have ftwo10 : 2 ≤ dg.TVG_dB.length := by rw [htvg]; exact h2
  have fle10 : dg.TVG_dB.length ≤ 2147483648 := by rw [htvg]; exact hN
  have ftwo11 : 2 ≤ dg.beamAngleReRx_deg.length := by rw [hbar]; exact h2
  have fle11 : dg.beamAngleReRx_deg.length ≤ 2147483648 := by rw [hbar]; exact hN
  have ftwo12 : 2 ≤ dg.beamAngleCorrection_deg.length := by rw [hbac]; exact h2
  have fle12 : dg.beamAngleCorrection_deg.length ≤ 2147483648 := by rw [hbac]; exact hN
  have ftwo13 : 2 ≤ dg.twoWayTravelTime_sec.length := by rw [htwt]; exact h2
  have fle13 : dg.twoWayTravelTime_sec.length ≤ 2147483648 := by rw [htwt]; exact hN
  have ftwo14 : 2 ≤ dg.twoWayTravelTimeCorrection_sec.length := by rw [htwtc]; exact h2
  have fle14 : dg.twoWayTravelTimeCorrection_sec.length ≤ 2147483648 := by rw [htwtc]; exact hN
  have ftwo15 : 2 ≤ dg.deltaLatitude_deg.length := by rw [hlat]; exact h2
  have fle15 : dg.deltaLatitude_deg.length ≤ 2147483648 := by rw [hlat]; exact hN
  have ftwo16 : 2 ≤ dg.deltaLongitude_deg.length := by rw [hlon]; exact h2
  have fle16 : dg.deltaLongitude_deg.length ≤ 2147483648 := by rw [hlon]; exact hN
  have ftwo17 : 2 ≤ dg.z_reRefPoint_m.length := by rw [hzz]; exact h2
  have fle17 : dg.z_reRefPoint_m.length ≤ 2147483648 := by rw [hzz]; exact hN
  have ftwo18 : 2 ≤ dg.y_reRefPoint_m.length := by rw [hyy]; exact h2
  have fle18 : dg.y_reRefPoint_m.length ≤ 2147483648 := by rw [hyy]; exact hN
  have ftwo19 : 2 ≤ dg.x_reRefPoint_m.length := by rw [hxx]; exact h2
  have fle19 : dg.x_reRefPoint_m.length ≤ 2147483648 := by rw [hxx]; exact hN
  have ftwo20 : 2 ≤ dg.beamIncAngleAdj_deg.length := by rw [hbia]; exact h2
  have fle20 : dg.beamIncAngleAdj_deg.length ≤ 2147483648 := by rw [hbia]; exact hN
  have hm1len : (mutateReflectivity dg.detectionMethod dg.reflectivity1_dB).length = N := by
    rw [mutateReflectivity_length, hdm, hre1]
    exact Nat.min_self N
  have hm2len : (mutateReflectivity dg.detectionMethod dg.reflectivity2_dB).length = N := by
    rw [mutateReflectivity_length, hdm, hre2]
    exact Nat.min_self N
  have hm1two : 2 ≤ (mutateReflectivity dg.detectionMethod dg.reflectivity1_dB).length := by
    rw [hm1len]; exact h2
  have hm2two : 2 ≤ (mutateReflectivity dg.detectionMethod dg.reflectivity2_dB).length := by
    rw [hm2len]; exact h2
  have hm1le : (mutateReflectivity dg.detectionMethod dg.reflectivity1_dB).length ≤
      2147483648 := by
    rw [hm1len]; exact hN
  have hm2le : (mutateReflectivity dg.detectionMethod dg.reflectivity2_dB).length ≤
      2147483648 := by
    rw [hm2len]; exact hN
  have hmvlen :
      ((sectorMeanVals dg.txSectorNumb dg.meanAbsCoeff_dbPerkm).map Int.toNat).length =
      (firstOccurrenceIdxs dg.txSectorNumb).length := by
    simp [sectorMeanVals]
  have hmvbnd : ∀ x ∈ (sectorMeanVals dg.txSectorNumb dg.meanAbsCoeff_dbPerkm).map
      Int.toNat, x < 65536 := by
    intro x hx
    obtain ⟨v, hv, rfl⟩ := List.mem_map.mp hx
    have hb := hmv v hv
    omega
  simp (disch := assumption) only [roundTrippedSoundings, expandAndDecodeSoundings,
    encodeAndCompressSoundings, bz2compress, bz2decompress, List.append_assoc,
    takeU16s_append, takeU16s_self, takeU8s_append, takeUintX_encode_snd,
    et1, et2, et3]
  exact ⟨trivial, trivial, trivial, trivial, trivial, trivial, trivial, trivial,
    trivial, trivial, trivial, trivial, trivial, trivial⟩

/-- A well-formed two-sounding table (valid detections, one sector) whose padding and realTimeCleanInfo columns are nonzero. -/
def tableC1 : SoundingTable :=
  { soundingIndex := [0, 1], txSectorNumb := [0, 0], detectionType := [0, 0],
    detectionMethod := [1, 1], rejectionInfo1 := [2, 3], rejectionInfo2 := [0, 0],
    postProcessingInfo := [0, 0], detectionClass := [0, 0],
    detectionConfidenceLevel := [0, 0], padding := [1, 1],
    rangeFactor := [100, 100], qualityFactor := [0, 0],
    detectionUncertaintyVer_m := [0, 0], detectionUncertaintyHor_m := [0, 0],
    detectionWindowLength_sec := [0, 0], echoLength_sec := [0, 0],
    WCBeamNumb := [7, 8], WCrange_samples := [0, 0],
    WCNomBeamAngleAcross_deg := [0, 0], meanAbsCoeff_dbPerkm := [0, 0],
    reflectivity1_dB := [0, 0], reflectivity2_dB := [0, 0],
    receiverSensitivityApplied_dB := [0, 0], sourceLevelApplied_dB := [0, 0],
    BScalibration_dB := [0, 0], TVG_dB := [0, 0], beamAngleReRx_deg := [0, 0],
    beamAngleCorrection_deg := [0, 0], twoWayTravelTime_sec := [0, 0],
    twoWayTravelTimeCorrection_sec := [0, 0], deltaLatitude_deg := [0, 0],
    deltaLongitude_deg := [0, 0], z_reRefPoint_m := [0, 0], y_reRefPoint_m := [0, 0],
    x_reRefPoint_m := [0, 0], beamIncAngleAdj_deg := [0, 0],
    realTimeCleanInfo := [1, 1], SIstartRange_samples := [0, 0],
    SIcentreSample := [5, 6], SInumSamples := [3, 4] }

/-- C1 counterexample: the round trip is NOT the identity on every
column other than the two reflectivity columns — on a well-formed table
whose padding and realTimeCleanInfo entries are 1, the decoded table has
zeros there (the decoder regenerates both columns). -/
theorem soundings_roundtrip_not_identity :
    (roundTrippedSoundings tableC1 2).padding ≠ tableC1.padding ∧
    (roundTrippedSoundings tableC1 2).realTimeCleanInfo ≠ tableC1.realTimeCleanInfo := by
  refine ⟨by decide, by decide⟩

/-- A well-formed two-sounding table for the C1 witness. -/
def tableC1w : SoundingTable :=
  { soundingIndex := [0, 1], txSectorNumb := [0, 0], detectionType := [0, 0],
    detectionMethod := [1, 1], rejectionInfo1 := [2, 3], rejectionInfo2 := [0, 0],
    postProcessingInfo := [0, 0], detectionClass := [0, 0],
    detectionConfidenceLevel := [0, 0], padding := [0, 0],
    rangeFactor := [100, 100], qualityFactor := [0, 0],
    detectionUncertaintyVer_m := [0, 0], detectionUncertaintyHor_m := [0, 0],
    detectionWindowLength_sec := [0, 0], echoLength_sec := [0, 0],
    WCBeamNumb := [7, 8], WCrange_samples := [0, 0],
    WCNomBeamAngleAcross_deg := [0, 0], meanAbsCoeff_dbPerkm := [0, 0],
    reflectivity1_dB := [0, 0], reflectivity2_dB := [0, 0],
    receiverSensitivityApplied_dB := [0, 0], sourceLevelApplied_dB := [0, 0],
    BScalibration_dB := [0, 0], TVG_dB := [0, 0], beamAngleReRx_deg := [0, 0],
    beamAngleCorrection_deg := [0, 0], twoWayTravelTime_sec := [0, 0],
    twoWayTravelTimeCorrection_sec := [0, 0], deltaLatitude_deg := [0, 0],
    deltaLongitude_deg := [0, 0], z_reRefPoint_m := [0, 0], y_reRefPoint_m := [0, 0],
    x_reRefPoint_m := [0, 0], beamIncAngleAdj_deg := [0, 0],
    realTimeCleanInfo := [0, 0], SIstartRange_samples := [0, 0],
    SIcentreSample := [5, 6], SInumSamples := [3, 4] }

set_option synthInstance.maxSize 3000 in
set_option synthInstance.maxHeartbeats 2000000 in
set_option maxRecDepth 20000 in
/-- Concrete instance of the amended C1 theorem. -/
theorem soundings_roundtrip_integer_columns_witness :
    (roundTrippedSoundings tableC1w 2).soundingIndex = tableC1w.soundingIndex ∧
    (roundTrippedSoundings tableC1w 2).detectionType = tableC1w.detectionType ∧
    (roundTrippedSoundings tableC1w 2).detectionMethod = tableC1w.detectionMethod ∧
    (roundTrippedSoundings tableC1w 2).txSectorNumb = tableC1w.txSectorNumb ∧
    (roundTrippedSoundings tableC1w 2).rejectionInfo1 = tableC1w.rejectionInfo1 ∧
    (roundTrippedSoundings tableC1w 2).rejectionInfo2 = tableC1w.rejectionInfo2 ∧
    (roundTrippedSoundings tableC1w 2).postProcessingInfo = tableC1w.postProcessingInfo ∧
    (roundTrippedSoundings tableC1w 2).detectionClass = tableC1w.detectionClass ∧
    (roundTrippedSoundings tableC1w 2).detectionConfidenceLevel = tableC1w.detectionConfidenceLevel ∧
    (roundTrippedSoundings tableC1w 2).WCBeamNumb = tableC1w.WCBeamNumb ∧
    (roundTrippedSoundings tableC1w 2).WCrange_samples = tableC1w.WCrange_samples ∧
    (roundTrippedSoundings tableC1w 2).SIstartRange_samples = tableC1w.SIstartRange_samples ∧
    (roundTrippedSoundings tableC1w 2).SIcentreSample = tableC1w.SIcentreSample ∧
    (roundTrippedSoundings tableC1w 2).SInumSamples = tableC1w.SInumSamples :=
  soundings_roundtrip_integer_columns tableC1w 2 (by decide)

end kmall
